import Mathlib

/-!
Verification of the MetaMerge orchestration engine (multi-model LLM
aggregation service): a shallow embedding of the remote model client, the
judge synthesizer, the debate engine, the merge orchestrator, the research
citation pipeline and the in-memory job store, together with theorems about
the specified invariants and contracts.

Remote I/O is modelled by oracles: an `AttemptOutcome` describes what the
upstream HTTP gateway did on one attempt (successful content, timeout, HTTP
error, network error).  Wall-clock latencies are not modelled; timestamps of
the job store are explicit `Nat` parameters supplied by the environment.
-/

namespace MetaMerge

/-! ### JavaScript string helpers (semantics of the String methods used) -/

/-- Does `s` start with `pat` (character lists)? -/
def startsWithList : List Char → List Char → Bool
  | [], _ => true
  | _ :: _, [] => false
  | p :: ps, c :: cs => p = c && startsWithList ps cs

/-- Case-sensitive substring containment on character lists. -/
def containsSub (pat : List Char) : List Char → Bool
  | [] => startsWithList pat []
  | c :: cs => startsWithList pat (c :: cs) || containsSub pat cs

/-- JS `String.prototype.includes`: case-sensitive substring search. -/
def jsIncludes (s pat : String) : Bool := containsSub pat.data s.data

/-- JS whitespace class (ASCII part plus NBSP), as used by `\s` and `trim`. -/
def isJsSpace (c : Char) : Bool :=
  c = ' ' || c = '\t' || c = '\n' || c = '\r' || c.toNat = 11 || c.toNat = 12 || c.toNat = 160

/-- JS `String.prototype.trim` (drop leading/trailing whitespace). -/
def jsTrim (s : String) : String :=
  String.mk (((s.data.dropWhile isJsSpace).reverse.dropWhile isJsSpace).reverse)

/-- JS `s.substring(0, n)` (take the first `n` characters). -/
def takeChars (s : String) (n : Nat) : String := String.mk (s.data.take n)

/-- JS `String.fromCharCode(n)` for a single code point. -/
def fromCharCode (n : Nat) : String := String.singleton (Char.ofNat n)

/-- JS `a || b` on optional strings (empty string is falsy). -/
def jsOrOpt (a b : Option String) : Option String :=
  match a with
  | some s => if s = "" then b else some s
  | none => b

/-- JS `a || d` where `a` is an optional string and `d` a default string. -/
def jsOrString (a : Option String) (d : String) : String :=
  match a with
  | some s => if s = "" then d else s
  | none => d

/-- JS `array.map((item, index) => f(index, item))`, with explicit start index. -/
def mapWithIndex (f : Nat → α → β) : Nat → List α → List β
  | _, [] => []
  | i, a :: as => f i a :: mapWithIndex f (i + 1) as

/-- JS `array.map((item, index) => ...)`. -/
def jsMapIdx (f : Nat → α → β) (l : List α) : List β := mapWithIndex f 0 l

/-! ### Remote Model Client (`OpenRouterService`, src/unnamed/part_006)

`callModel` maps one HTTP attempt to either the response content or a thrown
`Error` message, exactly mirroring the `catch` block of
`OpenRouterService.callModel`:
* empty content           → `Empty response from model`
* timeout / ECONNABORTED  → `Timeout after <timeoutMs>ms`
* HTTP error response     → `OpenRouter API error: <status> - <body>`
* other axios failure     → `Network error: <reason>`
-/

/-- What the upstream gateway did on one attempt (environment input). -/
inductive AttemptOutcome where
  | httpOk (content : String)
  | axiosTimeout
  | axiosHttpError (status : Nat) (body : String)
  | axiosNetworkError (msg : String)
  deriving Repr, DecidableEq

/-- `OpenRouterService.callModel`: one attempt, as result-or-error-message. -/
def callModel (timeoutMs : Nat) (o : AttemptOutcome) : Except String String :=
  match o with
  | .httpOk content =>
      if content = "" then .error "Empty response from model" else .ok content
  | .axiosTimeout => .error ("Timeout after " ++ toString timeoutMs ++ "ms")
  | .axiosHttpError status body =>
      .error ("OpenRouter API error: " ++ toString status ++ " - " ++ body)
  | .axiosNetworkError msg => .error ("Network error: " ++ msg)

/-- The retry loop of `OpenRouterService.callModelWithRetry`.  `attempt` is the
0-based attempt counter of the `for` loop; the fuel is `maxRetries + 1 -
attempt` so the structural recursion replays `attempt <= maxRetries`.  Also
returns how many attempts were performed, and the backoff delays (ms) waited
before each retry (`1000 * (attempt + 1)`). -/
def retryLoop (timeoutMs maxRetries : Nat) (oracle : Nat → AttemptOutcome) :
    Nat → Nat → Except String String × Nat × List Nat
  | attempt, 0 => (.error "Unknown error", attempt, [])
  | attempt, fuel + 1 =>
    match callModel timeoutMs (oracle attempt) with
    | .ok s => (.ok s, attempt + 1, [])
    | .error msg =>
      -- source comment: "Don't retry on timeout or non-transient errors"
      if jsIncludes msg "timeout" || attempt = maxRetries then
        (.error msg, attempt + 1, [])
      else
        let r := retryLoop timeoutMs maxRetries oracle (attempt + 1) fuel
        (r.1, r.2.1, 1000 * (attempt + 1) :: r.2.2)

/-- `OpenRouterService.callModelWithRetry`: result, attempts used, backoffs. -/
def callModelWithRetry (timeoutMs maxRetries : Nat) (oracle : Nat → AttemptOutcome) :
    Except String String × Nat × List Nat :=
  retryLoop timeoutMs maxRetries oracle 0 (maxRetries + 1)

/-! ### Job Store (`JobStoreService`, src/src/jobs/job-store.service.ts)

The registry `Map<string, DeepResearchJob>` is embedded as an insertion-order
association list (JS `Map` preserves insertion order and `set` overwrites in
place).  Timestamps (`new Date()`) are explicit `Nat` milliseconds supplied by
the environment; the freshly generated uuid of `createJob` is likewise a
parameter.  The opaque `options` payload and the structured `result` value are
carried as plain strings (no claim inspects their insides). -/

inductive JobStatus where
  | queued | running | completed | failed
  deriving Repr, DecidableEq

structure DeepResearchJob where
  jobId : String
  userId : Option String
  status : JobStatus
  progress : Int
  currentIteration : Option Nat
  totalIterations : Option Nat
  query : String
  result : Option String
  error : Option (String × String)   -- (code, message)
  createdAt : Nat
  updatedAt : Nat
  startedAt : Option Nat
  completedAt : Option Nat
  estimatedRemainingSeconds : Option Nat
  deriving Repr, DecidableEq

instance : Inhabited DeepResearchJob :=
  ⟨⟨"", none, .queued, 0, none, none, "", none, none, 0, 0, none, none, none⟩⟩

/-- The in-memory registry `jobs : Map<string, DeepResearchJob>`. -/
abbrev JobMap := List (String × DeepResearchJob)

/-- `jobs.get(jobId)`. -/
def jobsGet (store : JobMap) (jobId : String) : Option DeepResearchJob :=
  match store with
  | [] => none
  | (k, v) :: rest => if k = jobId then some v else jobsGet rest jobId

/-- `jobs.set(jobId, job)`: overwrite in place, append if new. -/
def jobsSet (store : JobMap) (jobId : String) (job : DeepResearchJob) : JobMap :=
  match store with
  | [] => [(jobId, job)]
  | (k, v) :: rest =>
    if k = jobId then (jobId, job) :: rest else (k, v) :: jobsSet rest jobId job

/-- `JobStoreService.createJob` (uuid and clock passed in). -/
def createJob (store : JobMap) (jobId : String) (query : String)
    (userId : Option String) (now : Nat) : JobMap :=
  jobsSet store jobId
    { jobId := jobId, userId := userId, status := .queued, progress := 0
      currentIteration := none, totalIterations := none, query := query
      result := none, error := none, createdAt := now, updatedAt := now
      startedAt := none, completedAt := none, estimatedRemainingSeconds := none }

/-- `JobStoreService.getJob`. -/
def getJob (store : JobMap) (jobId : String) (userId : Option String) : Option DeepResearchJob :=
  match jobsGet store jobId with
  | none => none
  | some job =>
    match userId, job.userId with
    | some u, some ju => if u ≠ "" ∧ ju ≠ "" ∧ ju ≠ u then none else some job
    | _, _ => some job

/-- `JobStoreService.updateJobStatus`.  The `updates` object is a field patch
applied between the timestamp bookkeeping and the final `status`/`updatedAt`
assignment, mirroring `Object.assign(job, {...updates, status, updatedAt})`. -/
def updateJobStatus (store : JobMap) (jobId : String) (status : JobStatus)
    (patch : DeepResearchJob → DeepResearchJob) (now : Nat) : JobMap :=
  match jobsGet store jobId with
  | none => store
  | some job =>
    let job1 := if status = .running ∧ job.startedAt = none
                then { job with startedAt := some now } else job
    let job2 := if status = .completed ∨ status = .failed
                then { job1 with completedAt := some now } else job1
    let job3 := patch job2
    jobsSet store jobId { job3 with status := status, updatedAt := now }

/-- JS `Math.max` on integers. -/
def jsMaxInt (a b : Int) : Int := if a ≤ b then b else a

/-- JS `Math.min` on integers. -/
def jsMinInt (a b : Int) : Int := if a ≤ b then a else b

/-- JS `Math.round` (round half toward positive infinity). -/
def jsRound (q : ℚ) : Int := ⌊q + 1/2⌋

/-- `JobStoreService.roundToMultipleOf5`. -/
def roundToMultipleOf5 (progress : ℚ) : Int := jsRound (progress / 5) * 5

/-- `JobStoreService.updateProgress`. -/
def updateProgress (store : JobMap) (jobId : String) (progress : ℚ)
    (estimatedRemainingSeconds : Option Nat) (currentIteration : Option Nat)
    (totalIterations : Option Nat) (now : Nat) : JobMap :=
  match jobsGet store jobId with
  | none => store
  | some job =>
    let roundedProgress := roundToMultipleOf5 progress
    let j1 := { job with progress := jsMaxInt 0 (jsMinInt 100 roundedProgress) }
    let j2 := match estimatedRemainingSeconds with
              | some e => { j1 with estimatedRemainingSeconds := some e }
              | none => j1
    let j3 := match currentIteration with
              | some c => { j2 with currentIteration := some c }
              | none => j2
    let j4 := match totalIterations with
              | some t => { j3 with totalIterations := some t }
              | none => j3
    jobsSet store jobId { j4 with updatedAt := now }

/-- `updateProgress` once the rounding is done: used to evaluate concrete
traces (the rational arithmetic of `roundToMultipleOf5` is bridged by
`updateProgress_eq_int` below). -/
def updateProgressInt (store : JobMap) (jobId : String) (roundedProgress : Int)
    (estimatedRemainingSeconds : Option Nat) (currentIteration : Option Nat)
    (totalIterations : Option Nat) (now : Nat) : JobMap :=
  match jobsGet store jobId with
  | none => store
  | some job =>
    let j1 := { job with progress := jsMaxInt 0 (jsMinInt 100 roundedProgress) }
    let j2 := match estimatedRemainingSeconds with
              | some e => { j1 with estimatedRemainingSeconds := some e }
              | none => j1
    let j3 := match currentIteration with
              | some c => { j2 with currentIteration := some c }
              | none => j2
    let j4 := match totalIterations with
              | some t => { j3 with totalIterations := some t }
              | none => j3
    jobsSet store jobId { j4 with updatedAt := now }

theorem updateProgress_eq_int (store : JobMap) (jobId : String) (progress : ℚ)
    (est cur tot : Option Nat) (now : Nat) :
    updateProgress store jobId progress est cur tot now =
      updateProgressInt store jobId (roundToMultipleOf5 progress) est cur tot now := rfl

/-- `Rat.floor` coincides with the mathematical floor. -/
theorem ratFloor_eq_floor (q : ℚ) : Rat.floor q = ⌊q⌋ := by
  rw [Rat.floor_def, Rat.floor_def']

/-- Computable form of `roundToMultipleOf5` (`p/5 + 1/2` written over the raw
numerator/denominator so the kernel can evaluate concrete instances). -/
theorem roundToMultipleOf5_divInt (p : ℚ) :
    roundToMultipleOf5 p =
      Rat.floor (Rat.divInt (2 * p.num + 5 * (p.den : Int)) (10 * (p.den : Int))) * 5 := by
  have hd : ((p.den : ℚ)) ≠ 0 := Nat.cast_ne_zero.mpr p.den_nz
  have harg : p / 5 + 1/2 =
      Rat.divInt (2 * p.num + 5 * (p.den : Int)) (10 * (p.den : Int)) := by
    rw [Rat.divInt_eq_div]
    push_cast
    conv_lhs => rw [← Rat.num_div_den p]
    field_simp
    ring
  unfold roundToMultipleOf5 jsRound
  rw [harg, ratFloor_eq_floor]

/-- `JobStoreService.setResult`. -/
def setResult (store : JobMap) (jobId : String) (result : String) (now : Nat) : JobMap :=
  updateJobStatus store jobId .completed
    (fun j => { j with result := some result, progress := 100 }) now

/-- `JobStoreService.setError`. -/
def setError (store : JobMap) (jobId : String) (error : String × String) (now : Nat) : JobMap :=
  updateJobStatus store jobId .failed
    (fun j => { j with error := some error, progress := 0 }) now

/-- `JobStoreService.getQueuedJobs`. -/
def getQueuedJobs (store : JobMap) : List DeepResearchJob :=
  (store.map (·.2)).filter (fun job => job.status = .queued)

/-- The removal condition of `JobStoreService.cleanupOldJobs` (terminal
status, `completedAt` set, strictly older than `maxAge` ms). -/
def cleanupCond (now maxAge : Nat) (job : DeepResearchJob) : Bool :=
  (job.status = .completed || job.status = .failed) &&
  (match job.completedAt with
   | some t => decide ((now : Int) - (t : Int) > (maxAge : Int))
   | none => false)

/-- `JobStoreService.cleanupOldJobs` (deleting while iterating a JS `Map`
equals filtering); returns the new registry and the `cleaned` count. -/
def cleanupOldJobs (store : JobMap) (maxAgeHours : Nat) (now : Nat) : JobMap × Nat :=
  let maxAge := maxAgeHours * 60 * 60 * 1000
  ((store.filter (fun e => !cleanupCond now maxAge e.2)),
   (store.filter (fun e => cleanupCond now maxAge e.2)).length)

/-! ### Shared answer / debate data model -/

/-- A `{ model, answer }` pair as passed between orchestrator, debate and
judge (`successfulAnswers` entries). -/
structure JAnswer where
  model : String
  answer : String
  deriving Repr, DecidableEq

instance : Inhabited JAnswer := ⟨⟨"", ""⟩⟩

/-- `AnonymizedAnswer` (src/unnamed/part_010). -/
structure AnonymizedAnswer where
  label : String
  content : String
  deriving Repr, DecidableEq

/-- One recorded debate round (src/unnamed/part_009); the per-answer
`latency_ms` field is wall-clock time and is not modelled. -/
structure DebateRound where
  round : Nat
  judgeFeedback : String
  answers : List JAnswer
  deriving Repr, DecidableEq

instance : Inhabited DebateRound := ⟨⟨0, "", []⟩⟩

/-! ### Judge Synthesizer (`JudgeService`, src/unnamed/part_010)

The prompt-construction pipeline is embedded verbatim; the actual judge model
call is an oracle (see the orchestrator below). -/

/-- The 40-char heavy separator line used in the judge user message. -/
def heavySep : String := "━━━━━━━━━━━━━━━━━━━━━━━━━━━━━━━━━━━━━━━━"

/-- `JudgeService.getJudgeSystemPrompt` base text. -/
def judgeBasePrompt : String :=
  "You are an expert synthesis judge. Your task is to create a superior, comprehensive answer by:\n\n1. ANALYZING all provided answers (Answer A, B, C, etc.) from different expert models\n2. IDENTIFYING the best insights, facts, and explanations from each\n3. SYNTHESIZING them into a single, well-structured response written entirely in YOUR OWN WORDS\n4. RESOLVING any contradictions or gaps between answers\n5. ENHANCING the response with better organization, clarity, and completeness\n\nCRITICAL REQUIREMENTS:\n- DO NOT copy any answer verbatim - rewrite everything in your own voice\n- DO NOT simply pick one answer - you must merge and synthesize from ALL answers\n- CREATE a response that is BETTER than any individual answer\n- STRUCTURE the response clearly with proper formatting (use markdown)\n- BE comprehensive - include the best parts from all answers\n- RESOLVE conflicts by choosing the most accurate information\n- ADD value through better organization and synthesis"

/-- `JudgeService.getJudgeSystemPrompt`. -/
def getJudgeSystemPrompt (isResearchMode : Bool) : String :=
  if isResearchMode then
    judgeBasePrompt ++ "\n\nRESEARCH MODE REQUIREMENTS:\n- PRIORITIZE research-backed information over model assumptions\n- PRESERVE citations from source answers (format: [Source 1], [Source 2], etc.)\n- VERIFY facts against provided research context\n- BE HONEST about uncertainties - do not hallucinate\n- INCLUDE all relevant citations in your final answer\n- ENSURE all factual claims are backed by research sources\n\nYour output should be a well-researched, fact-based response with proper citations."
  else
    judgeBasePrompt ++ "\n\nYour output should be a polished, professional response that demonstrates superior synthesis of all the expert opinions."

/-- JS `truncated.lastIndexOf(' ')` (−1 when there is no space). -/
def jsLastIndexOfSpace (cs : List Char) : Int :=
  (cs.foldl (fun acc c => (if c = ' ' then (acc.2 : Int) else acc.1, acc.2 + 1))
    ((-1 : Int), (0 : Nat))).1

/-- `JudgeService.truncateAnswer` (truncate at the last word boundary). -/
def truncateAnswer (answer : String) (maxLength : Nat) : String :=
  if answer.length ≤ maxLength then answer
  else
    let truncated := takeChars answer maxLength
    let lastSpace := jsLastIndexOfSpace truncated.data
    if lastSpace > 0 then takeChars truncated lastSpace.toNat ++ "..."
    else truncated ++ "..."

/-- `JudgeService.buildJudgeUserMessage`. -/
def buildJudgeUserMessage (maxAnswerLength : Nat) (userPrompt : String)
    (anonymizedAnswers : List AnonymizedAnswer) : String :=
  let processedAnswers := anonymizedAnswers.map (fun answer =>
    { answer with content :=
        if answer.content.length > maxAnswerLength
        then truncateAnswer answer.content maxAnswerLength
        else answer.content })
  let header :=
    "USER QUESTION:\n" ++ userPrompt ++ "\n\n" ++
    "You have received " ++ toString processedAnswers.length ++
    " expert answers from different AI models. " ++
    "Your task is to create a superior synthesized response that combines the best elements from all of them.\n\n" ++
    "EXPERT ANSWERS TO SYNTHESIZE:\n\n"
  let body := processedAnswers.foldl
    (fun m answer => m ++ heavySep ++ "\n" ++ answer.label ++ ":\n" ++ answer.content ++ "\n\n")
    header
  body ++ heavySep ++ "\n\n" ++
    "Now create your synthesized response. Remember:\n" ++
    "- Write in YOUR OWN WORDS (do not copy)\n" ++
    "- Synthesize the BEST parts from ALL answers\n" ++
    "- Create a response that is BETTER than any individual answer\n" ++
    "- Use clear structure and formatting\n"

/-- The anonymization step of `JudgeService.judgeAndMerge` (labels `Answer A`,
`Answer B`, … assigned by position). -/
def anonymizeAnswers (successfulAnswers : List JAnswer) : List AnonymizedAnswer :=
  jsMapIdx (fun index item =>
    AnonymizedAnswer.mk ("Answer " ++ fromCharCode (65 + index)) item.answer)
    successfulAnswers

/-- The debate evolution context block prefixed to the judge user message. -/
def debateContextBlock (debateRounds : List DebateRound) : String :=
  let intro :=
    "\n\n" ++ heavySep ++ "\n" ++ "DEBATE EVOLUTION CONTEXT:\n" ++
    "The models went through " ++ toString debateRounds.length ++ " rounds of refinement.\n\n"
  (debateRounds.foldl
    (fun m round => m ++ "Round " ++ toString round.round ++ " Judge Feedback: " ++
      round.judgeFeedback ++ "\n\n") intro) ++
  "The final answers above reflect these refinements.\n" ++ heavySep ++ "\n\n"

/-- The (system, user) messages `JudgeService.judgeAndMerge` sends to the
judge model, after anonymization and debate-context augmentation. -/
def judgeAndMergePrompts (maxAnswerLength : Nat) (userPrompt : String)
    (successfulAnswers : List JAnswer) (debateRounds : List DebateRound)
    (isResearchMode : Bool) : String × String :=
  let anonymized := anonymizeAnswers successfulAnswers
  let systemPrompt := getJudgeSystemPrompt isResearchMode
  let userMessage := buildJudgeUserMessage maxAnswerLength userPrompt anonymized
  if debateRounds.length > 0 then
    (systemPrompt ++
       "\n\nIMPORTANT: You observed " ++ toString debateRounds.length ++
       " rounds of iterative debate where models refined their answers based on judge feedback. The final answers below represent evolved, improved versions. Pay special attention to how the models addressed the feedback and incorporated improvements.",
     debateContextBlock debateRounds ++ userMessage)
  else (systemPrompt, userMessage)

/-- The outcome of one `judgeAndMerge` invocation: throws when the answer list
is empty, otherwise one judge-model call with no retries. -/
def judgeAndMergeOutcome (judgeTimeoutMs : Nat) (oracle : AttemptOutcome)
    (successfulAnswers : List JAnswer) : Except String String :=
  if successfulAnswers.length = 0 then .error "No successful answers to judge"
  else (callModelWithRetry judgeTimeoutMs 0 (fun _ => oracle)).1

/-! ### Debate Engine (`DebateService`, src/unnamed/part_009)

Judge-feedback and refinement calls are oracles indexed by round (and model
position).  The message builders are embedded for the noninterference claim;
the engine's control flow consumes only the call outcomes. -/

/-- `DebateService.getJudgeFeedbackPrompt`. -/
def getJudgeFeedbackPrompt : String :=
  "You are a debate moderator. After each round, provide brief, actionable feedback (max 100 words) on:\n1. What\x27s good in the answers\n2. What needs improvement or clarification\n3. Key points to address\n\nBe concise and direct."

/-- The user message of `DebateService.getJudgeFeedback` (anonymized view of
the current answers, truncated to 500 chars each). -/
def getJudgeFeedbackMessage (round : Nat) (currentAnswers : List JAnswer) : String :=
  let anonymizedAnswers := jsMapIdx (fun index item =>
    AnonymizedAnswer.mk ("Expert " ++ fromCharCode (65 + index)) (takeChars item.answer 500))
    currentAnswers
  (anonymizedAnswers.foldl (fun m ans => m ++ ans.label ++ ": " ++ ans.content ++ "\n\n")
    ("Round " ++ toString round ++ " Answers:\n\n")) ++
  "Provide brief feedback for the next round."

/-- `DebateService.getDebateSystemPrompt`. -/
def getDebateSystemPrompt (round : Nat) (judgeFeedback : String) : String :=
  "You\x27re in a fast iterative debate. Round " ++ toString round ++ ".\n\nJudge Feedback: " ++
  judgeFeedback ++
  "\n\nQuickly refine your answer based on:\n1. Judge feedback above\n2. Other experts\x27 answers below\n3. Original question\n\nBe concise. Focus on improvements."

/-- `DebateService.buildDebateUserMessage` (the `round` parameter is accepted
but unused by the source body). -/
def buildDebateUserMessage (originalPrompt : String) (_round : Nat) (judgeFeedback : String)
    (allAnswers : List JAnswer) (currentModel : String) (currentModelAnswer : String) : String :=
  let others := (jsMapIdx (fun index item =>
    if item.model ≠ currentModel
    then "Expert " ++ fromCharCode (65 + index) ++ ": " ++ takeChars item.answer 300 ++ "...\n\n"
    else "") allAnswers).foldl (· ++ ·) ""
  "Q: " ++ originalPrompt ++ "\n\n" ++ "Judge Feedback: " ++ judgeFeedback ++ "\n\n" ++
  "Other Experts\x27 Answers:\n" ++ others ++
  "Your Previous Answer: " ++ takeChars currentModelAnswer 300 ++ "...\n\n" ++
  "Provide your refined answer (be concise, max 500 words)."

/-- The judge feedback obtained for one round: a no-retry model call whose
failure is replaced by the generic fallback string. -/
def judgeFeedbackOf (judgeFeedbackTimeoutMs : Nat) (fb : Nat → AttemptOutcome)
    (round : Nat) : String :=
  match (callModelWithRetry judgeFeedbackTimeoutMs 0 (fun _ => fb round)).1 with
  | .ok s => s
  | .error _ => "Continue refining your answers based on other experts\x27 perspectives."

/-- One parallel refinement pass: each model keeps its previous answer when
its (no-retry) refinement call fails. -/
def refineRound (debateTimeoutMs : Nat) (rf : Nat → Nat → AttemptOutcome)
    (round : Nat) (currentAnswers : List JAnswer) : List JAnswer :=
  jsMapIdx (fun i item =>
    match (callModelWithRetry debateTimeoutMs 0 (fun _ => rf round i)).1 with
    | .ok s => JAnswer.mk item.model s
    | .error _ => JAnswer.mk item.model item.answer) currentAnswers

/-- The `for (round = 1; round <= maxDebateRounds; round++)` loop, structural
on the number of remaining rounds. -/
def debateLoop (judgeFeedbackTimeoutMs debateTimeoutMs : Nat)
    (fb : Nat → AttemptOutcome) (rf : Nat → Nat → AttemptOutcome) :
    Nat → Nat → List JAnswer → List DebateRound × List JAnswer
  | _, 0, currentAnswers => ([], currentAnswers)
  | round, remaining + 1, currentAnswers =>
    let judgeFeedback := judgeFeedbackOf judgeFeedbackTimeoutMs fb round
    let refined := refineRound debateTimeoutMs rf round currentAnswers
    let rest := debateLoop judgeFeedbackTimeoutMs debateTimeoutMs fb rf (round + 1) remaining refined
    (DebateRound.mk round judgeFeedback refined :: rest.1, rest.2)

structure IterativeDebateResult where
  debateRounds : List DebateRound
  finalAnswers : List JAnswer
  deriving Repr, DecidableEq

/-- `DebateService.conductIterativeDebate` (the original prompt flows only
into the oracle-bound messages, so it is a parameter without further use). -/
def conductIterativeDebate (maxDebateRounds judgeFeedbackTimeoutMs debateTimeoutMs : Nat)
    (fb : Nat → AttemptOutcome) (rf : Nat → Nat → AttemptOutcome)
    (_originalPrompt : String) (initialAnswers : List JAnswer) : IterativeDebateResult :=
  let currentAnswers := initialAnswers.map (fun item => JAnswer.mk item.model item.answer)
  let r := debateLoop judgeFeedbackTimeoutMs debateTimeoutMs fb rf 1 maxDebateRounds currentAnswers
  IterativeDebateResult.mk r.1 r.2

/-! ### Merge Orchestrator (`MergeService`, src/unnamed/part_014)

Nondeterminism made explicit:
* `arrival` — the completion order of the fan-out calls (indices into the
  requested model list); the early-judge fold processes results in this order.
* `modelOracle i a` — the gateway outcome for model `i`, attempt `a`.
* `judgeOracle k` — the gateway outcome of the `k`-th judge launch
  (`judgePromise` assignments, in order).
* `fb`, `rf` — debate feedback/refinement outcomes (as above).

`MergeRun` keeps, besides the returned value, the intermediate lists the
source holds in local variables (`modelResults`, `successfulResults`,
`finalAnswersForJudge`) and the log of judge launches, so theorems can speak
about them. -/

structure MergeCfg where
  judgeModel : String
  perModelTimeoutMs : Nat
  maxPromptLength : Nat
  minModelsForJudge : Nat
  enableEarlyJudge : Bool
  enableDebate : Bool
  maxDebateRounds : Nat
  judgeTimeoutMs : Nat
  debateTimeoutMs : Nat
  judgeFeedbackTimeoutMs : Nat
  deriving Repr, DecidableEq

/-- `ModelCallResult` (src/unnamed/part_014). -/
structure ModelCallResult where
  model : String
  answer : Option String
  success : Bool
  error : Option String
  deriving Repr, DecidableEq

instance : Inhabited ModelCallResult := ⟨⟨"", none, false, none⟩⟩

/-- `MergeService.getModelSystemPrompt`. -/
def getModelSystemPrompt (mode : Option String) : String :=
  let basePrompt :=
    "You are one of several models in a council answering the same question. Answer clearly and directly."
  if mode = some "coding" then
    basePrompt ++ " Provide code examples and explanations when relevant."
  else if mode = some "system-design" then
    basePrompt ++ " Focus on architecture, scalability, and trade-offs."
  else basePrompt

/-- `MergeService.callSingleModel`: one retry for transient errors; a failure
is captured as `success=false, answer=null`. -/
def callSingleModel (cfg : MergeCfg) (model : String) (oracle : Nat → AttemptOutcome) :
    ModelCallResult :=
  match (callModelWithRetry cfg.perModelTimeoutMs 1 oracle).1 with
  | .ok s => ⟨model, some s, true, none⟩
  | .error msg => ⟨model, none, false, some msg⟩

/-- One recorded judge launch (`judgePromise = judgeAndMerge(...)`):
the answers handed over, the debate rounds (empty when absent) and the
`customJudgeModel` argument (none when the source passes nothing). -/
structure JudgeCall where
  answers : List JAnswer
  rounds : List DebateRound
  customModel : Option String
  deriving Repr, DecidableEq

instance : Inhabited JudgeCall := ⟨⟨[], [], none⟩⟩

/-- `judgeModelToUse = customJudgeModel || this.judgeModel` inside
`JudgeService.judgeAndMerge` (line 147 of src/unnamed/part_010). -/
def resolvedJudgeModel (defaultJudge : String) (c : JudgeCall) : String :=
  jsOrString c.customModel defaultJudge

inductive MergeError where
  | badRequest (msg : String)                                -- HTTP 400
  | allModelsFailed (model_answers : List ModelCallResult)   -- HTTP 500
  deriving Repr, DecidableEq

/-- `{ merged_answer, model_answers }` of `InternalMergeResponseDto`
(`meta` carries only timestamps/ids and is not modelled). -/
structure MergeOutcome where
  merged_answer : Option String
  model_answers : List ModelCallResult
  deriving Repr, DecidableEq

deriving instance DecidableEq for Except

structure MergeRun where
  result : Except MergeError MergeOutcome
  judgeCalls : List JudgeCall
  fanoutResults : List ModelCallResult
  successfulResults : List ModelCallResult
  finalAnswersForJudge : List JAnswer
  activeJudgeOutcome : Except String String
  deriving Repr, DecidableEq

/-- `r.answer!` as mapped to `{ model, answer }` for the judge. -/
def toJAnswer (r : ModelCallResult) : JAnswer := ⟨r.model, r.answer.getD ""⟩

/-- The mutable locals of the early-judge fan-out phase. -/
structure FanState where
  modelResults : List ModelCallResult
  successfulResults : List ModelCallResult
  judgeCalls : List JudgeCall
  judgeStarted : Bool
  deriving Repr, DecidableEq

/-- Processing one completed model call in the early-judge path: append the
result, collect successes, and `maybeStartJudge`. -/
def fanStep (cfg : MergeCfg) (judgeModelToUse : String) (st : FanState)
    (r : ModelCallResult) : FanState :=
  let st1 := { st with modelResults := st.modelResults ++ [r] }
  if r.success then
    let st2 := { st1 with successfulResults := st1.successfulResults ++ [r] }
    if !st2.judgeStarted ∧ st2.successfulResults.length ≥ cfg.minModelsForJudge ∧
        cfg.enableEarlyJudge then
      { st2 with judgeStarted := true,
                 judgeCalls := st2.judgeCalls ++
                   [⟨st2.successfulResults.map toJAnswer, [], some judgeModelToUse⟩] }
    else st2
  else st1

/-- Phase 1: parallel fan-out.  With early judge enabled results are folded in
completion (`arrival`) order; otherwise `Promise.all` preserves model order. -/
def fanPhase (cfg : MergeCfg) (judgeModelToUse : String) (ms : List String)
    (arrival : List Nat) (modelOracle : Nat → Nat → AttemptOutcome) : FanState :=
  if cfg.enableEarlyJudge then
    (arrival.map (fun i => callSingleModel cfg (ms.getD i "") (modelOracle i))).foldl
      (fanStep cfg judgeModelToUse) ⟨[], [], [], false⟩
  else
    let allResults := (List.range ms.length).map
      (fun i => callSingleModel cfg (ms.getD i "") (modelOracle i))
    ⟨allResults, allResults.filter (·.success), [], false⟩

/-- Phase 2, `if (!judgeStarted)` after a non-empty success list: launch the
late judge over all successes (the `customJudgeModel` argument is passed). -/
def lateJudgeStart (judgeModelToUse : String) (st : FanState) : FanState :=
  if !st.judgeStarted then
    { st with judgeStarted := true,
              judgeCalls := st.judgeCalls ++
                [⟨st.successfulResults.map toJAnswer, [], some judgeModelToUse⟩] }
  else st

/-- Phase 3: the optional debate over the successes (the embedded debate is
total, so the source's catch-and-continue branch cannot trigger).  Returns
`(debateRounds, finalAnswersForJudge)`. -/
def debatePhase (cfg : MergeCfg) (prompt : String) (fb : Nat → AttemptOutcome)
    (rf : Nat → Nat → AttemptOutcome) (st : FanState) :
    List DebateRound × List JAnswer :=
  let initialFinal := st.successfulResults.map toJAnswer
  if cfg.enableDebate ∧ st.successfulResults.length ≥ 2 then
    let dres := conductIterativeDebate cfg.maxDebateRounds cfg.judgeFeedbackTimeoutMs
      cfg.debateTimeoutMs fb rf prompt initialFinal
    (dres.debateRounds, dres.finalAnswers)
  else ([], initialFinal)

/-- The final judge launch decision: `if (!judgePromise)` (defensive; the
promise is always set here) / `else if (debateRounds && debateRounds.length >
0)`.  Both launches pass **no** `customJudgeModel` argument. -/
def relaunchJudge (finalAnswersForJudge : List JAnswer) (debateRounds : List DebateRound)
    (calls : List JudgeCall) : List JudgeCall :=
  if calls.length = 0 then calls ++ [⟨finalAnswersForJudge, debateRounds, none⟩]
  else if debateRounds.length > 0 then calls ++ [⟨finalAnswersForJudge, debateRounds, none⟩]
  else calls

/-- Phases 2–4 after fan-out: late judge / all-models-failed, optional debate,
post-debate judge re-launch, await of the active judge, fallback assembly. -/
def mergeAfterFan (cfg : MergeCfg) (prompt : String) (judgeModelToUse : String)
    (judgeOracle : Nat → AttemptOutcome) (fb : Nat → AttemptOutcome)
    (rf : Nat → Nat → AttemptOutcome) (st : FanState) : MergeRun :=
  -- `if (!judgeStarted)`: late judge over all successes, or AllModelsFailed
  if !st.judgeStarted ∧ st.successfulResults.length = 0 then
    ⟨.error (.allModelsFailed st.modelResults), st.judgeCalls, st.modelResults,
      st.successfulResults, [], .error "All models failed"⟩
  else
    let st2 := lateJudgeStart judgeModelToUse st
    let debState := debatePhase cfg prompt fb rf st2
    let debateRounds := debState.1
    let finalAnswersForJudge := debState.2
    let judgeCalls2 := relaunchJudge finalAnswersForJudge debateRounds st2.judgeCalls
    let activeIdx := judgeCalls2.length - 1
    let activeCall := judgeCalls2.getD activeIdx default
    let judgeOutcome := judgeAndMergeOutcome cfg.judgeTimeoutMs (judgeOracle activeIdx)
      activeCall.answers
    let mergedAnswer : Option String :=
      match judgeOutcome with
      | .ok s => some s
      | .error _ =>
        -- fallback: finalAnswersForJudge[0]?.answer || successfulResults[0]?.answer || null
        jsOrOpt (finalAnswersForJudge.head?.map (·.answer))
          (jsOrOpt (st2.successfulResults.head?.bind (·.answer)) none)
    ⟨.ok ⟨mergedAnswer, st2.modelResults⟩, judgeCalls2, st2.modelResults,
      st2.successfulResults, finalAnswersForJudge, judgeOutcome⟩

/-- `MergeService.merge`: validation, fan-out with early commit, late judge,
optional debate, result assembly. -/
def merge (cfg : MergeCfg) (prompt : String) (mode : Option String)
    (customModels : Option (List String)) (customJudgeModel : Option String)
    (arrival : List Nat) (modelOracle : Nat → Nat → AttemptOutcome)
    (judgeOracle : Nat → AttemptOutcome) (fb : Nat → AttemptOutcome)
    (rf : Nat → Nat → AttemptOutcome) : MergeRun :=
  let _ := getModelSystemPrompt mode
  match customModels with
  | none =>
    ⟨.error (.badRequest "No models provided. Please specify models in the request."),
      [], [], [], [], .error ""⟩
  | some ms =>
    if ms.length = 0 then
      ⟨.error (.badRequest "No models provided. Please specify models in the request."),
        [], [], [], [], .error ""⟩
    else
      let judgeModelToUse := jsOrString customJudgeModel cfg.judgeModel
      if prompt = "" ∨ (jsTrim prompt).length = 0 then
        ⟨.error (.badRequest "Prompt is required and cannot be empty"),
          [], [], [], [], .error ""⟩
      else if prompt.length > cfg.maxPromptLength then
        ⟨.error (.badRequest "Prompt cannot exceed max_prompt_length characters"),
          [], [], [], [], .error ""⟩
      else
        mergeAfterFan cfg prompt judgeModelToUse judgeOracle fb rf
          (fanPhase cfg judgeModelToUse ms arrival modelOracle)

/-! ### Research citation pipeline (`DeepResearchService`,
src/src/research/deep-research.service.ts)

The four citation regexes are embedded as deterministic scanners over the
character list; `String.prototype.matchAll` with the `g` flag yields leftmost
non-overlapping matches, which the fuel-structural `scanMatches` replays.
The patterns contain only literals, `\s+` and `\d+` followed by a
non-digit/non-space, so greedy matching needs no backtracking. -/

structure ResearchResult where
  title : String
  url : String
  snippet : String
  source : String
  deriving Repr, DecidableEq

instance : Inhabited ResearchResult := ⟨⟨"", "", "", ""⟩⟩

structure ResearchContext where
  query : String
  results : List ResearchResult
  summary : String
  citations : List String
  deriving Repr, DecidableEq

/-- `\d` (ASCII digits only). -/
def isDigitCh (c : Char) : Bool := '0' ≤ c ∧ c ≤ '9'

/-- Match a literal word case-insensitively (for the `i` flag); returns the
rest of the input. -/
def matchLitCI : List Char → List Char → Option (List Char)
  | [], s => some s
  | _, [] => none
  | p :: ps, c :: cs => if c.toLower = p then matchLitCI ps cs else none

/-- Greedy `\s+`: at least one JS whitespace char; returns (count, rest). -/
def matchSpaces1 (s : List Char) : Option (Nat × List Char) :=
  let n := (s.takeWhile isJsSpace).length
  if n = 0 then none else some (n, s.drop n)

/-- Greedy `(\d+)` with `parseInt` of the capture; returns (value, count, rest). -/
def matchDigits1 (s : List Char) : Option (Nat × Nat × List Char) :=
  let ds := s.takeWhile isDigitCh
  if ds.length = 0 then none
  else some (ds.foldl (fun acc c => acc * 10 + (c.toNat - 48)) 0, ds.length, s.drop ds.length)

/-- `/\[Source\s+(\d+)\]/gi` anchored at the head: (captured N, match length). -/
def tryMatchSourceBracket (s : List Char) : Option (Nat × Nat) :=
  match s with
  | '[' :: rest =>
    match matchLitCI "source".data rest with
    | some r1 =>
      match matchSpaces1 r1 with
      | some (k, r2) =>
        match matchDigits1 r2 with
        | some (n, d, r3) =>
          match r3 with
          | ']' :: _ => some (n, 1 + 6 + k + d + 1)
          | _ => none
        | none => none
      | none => none
    | none => none
  | _ => none

/-- `/\[(\d+)\]/g` anchored at the head. -/
def tryMatchBracketNum (s : List Char) : Option (Nat × Nat) :=
  match s with
  | '[' :: rest =>
    match matchDigits1 rest with
    | some (n, d, r1) =>
      match r1 with
      | ']' :: _ => some (n, 1 + d + 1)
      | _ => none
    | none => none
  | _ => none

/-- `/\(Source\s+(\d+)\)/gi` anchored at the head. -/
def tryMatchParenSource (s : List Char) : Option (Nat × Nat) :=
  match s with
  | '(' :: rest =>
    match matchLitCI "source".data rest with
    | some r1 =>
      match matchSpaces1 r1 with
      | some (k, r2) =>
        match matchDigits1 r2 with
        | some (n, d, r3) =>
          match r3 with
          | ')' :: _ => some (n, 1 + 6 + k + d + 1)
          | _ => none
        | none => none
      | none => none
    | none => none
  | _ => none

/-- `/Source\s+(\d+)/gi` anchored at the head. -/
def tryMatchBareSource (s : List Char) : Option (Nat × Nat) :=
  match matchLitCI "source".data s with
  | some r1 =>
    match matchSpaces1 r1 with
    | some (k, r2) =>
      match matchDigits1 r2 with
      | some (n, d, _) => some (n, 6 + k + d)
      | none => none
    | none => none
  | none => none

/-- `matchAll` scanning: leftmost non-overlapping matches, fuel-structural
(every step consumes at least one character, so fuel = length suffices). -/
def scanMatchesAux (tm : List Char → Option (Nat × Nat)) : Nat → List Char → List Nat
  | 0, _ => []
  | _, [] => []
  | fuel + 1, c :: rest =>
    match tm (c :: rest) with
    | some (n, len) => n :: scanMatchesAux tm fuel (rest.drop (len - 1))
    | none => scanMatchesAux tm fuel rest

/-- All captured numbers of a pattern over a string, in text order. -/
def scanMatches (tm : List Char → Option (Nat × Nat)) (answer : String) : List Nat :=
  scanMatchesAux tm answer.data.length answer.data

/-- The loop body of `DeepResearchService.extractCitations`: map a captured
`N` (1-based, `parseInt(match[1]) - 1`) to `results[N-1].url`, skipping
out-of-range indices, empty urls, and urls already collected. -/
def pushCitation (results : List ResearchResult) (acc : List String) (n : Nat) : List String :=
  if 1 ≤ n ∧ n - 1 < results.length then
    if (results.getD (n - 1) default).url ≠ "" ∧ (results.getD (n - 1) default).url ∉ acc
    then acc ++ [(results.getD (n - 1) default).url] else acc
  else acc

/-- `DeepResearchService.extractCitations`: the four patterns are processed in
source order over a shared `citations` accumulator. -/
def extractCitations (answer : String) (ctx : ResearchContext) : List String :=
  (scanMatches tryMatchSourceBracket answer ++ scanMatches tryMatchBracketNum answer ++
   scanMatches tryMatchParenSource answer ++ scanMatches tryMatchBareSource answer).foldl
    (pushCitation ctx.results) []

/-- Per-model answer record of the research pipeline
(`{ model, answer, citations }`). -/
structure ModelAnswer where
  model : String
  answer : String
  citations : List String
  deriving Repr, DecidableEq

/-- JS `Set.add` on an insertion-ordered list (re-adding does not move). -/
def setAdd (l : List String) (u : String) : List String :=
  if u ∈ l then l else l ++ [u]

/-- `DeepResearchService.extractAndAggregateCitations`: a `Set` seeded with
the final answer's citations, then every model answer's citations, then every
research-source url (empty strings are falsy and skipped); `Array.from`
returns insertion order. -/
def extractAndAggregateCitations (finalAnswer : String) (ctx : ResearchContext)
    (modelAnswers : List ModelAnswer) : List String :=
  let s1 := (extractCitations finalAnswer ctx).foldl setAdd []
  let s2 := modelAnswers.foldl
    (fun acc ma => ma.citations.foldl (fun a u => if u ≠ "" then setAdd a u else a) acc) s1
  ctx.results.foldl (fun acc r => if r.url ≠ "" then setAdd acc r.url else acc) s2

/-- Modelled from the spec: "Deduplicate preserving insertion order" — keep
the first occurrence of each url, preserving order (the reference function
the aggregation is compared against). -/
def dedupFirstAux (seen : List String) : List String → List String
  | [] => []
  | u :: us => if u ∈ seen then dedupFirstAux seen us
               else u :: dedupFirstAux (seen ++ [u]) us

/-- First-occurrence-kept, order-preserving deduplication (spec wording). -/
def dedupFirst (l : List String) : List String := dedupFirstAux [] l

/-! ### Async Worker (`DeepResearchWorkerService`, src/unnamed/part_012)

`performDeepResearchWithProgress` schedules milestone updates by wall-clock
timers (0ms/2s/4s/6s) that are never cancelled; the final milestone and
`setResult` run when the pipeline resolves.  The store-operation sequence a
run generates is therefore interleaved according to real time.  Below:
the exact sequence produced when the pipeline resolves after the 2s timer
but before the 4s timer (timestamps in ms). -/

/-- The worker's milestone progress values (`progressMilestones`). -/
def progressMilestones : List Nat := [10, 30, 50, 70, 100]

/-- Store evolution of `processJob` + `performDeepResearchWithProgress` for a
job whose research promise resolves at ~3s: start running, milestones 0/10/30,
completion (result + progress 100), then the pending 4s and 6s timers fire
`updateProgress(50)` and `updateProgress(70)` on the already-completed job. -/
def workerEarlyFinishStore : JobMap :=
  let s0 := createJob [] "job-1" "What is quantum computing?" none 1000
  let s1 := updateJobStatus s0 "job-1" .running (fun j => j) 1500
  let s2 := updateProgress s1 "job-1" 0 none none none 1500
  let s3 := updateProgress s2 "job-1" 0 none (some 0) (some 5) 1500
  let s4 := updateProgress s3 "job-1" 10 (some 300) (some 1) (some 5) 1500
  let s5 := updateProgress s4 "job-1" 30 (some 240) (some 2) (some 5) 3500
  let s6 := updateProgress s5 "job-1" 100 (some 0) (some 5) (some 5) 4400
  let s7 := setResult s6 "job-1" "structured deep research result" 4450
  let s8 := updateProgress s7 "job-1" 50 (some 180) (some 3) (some 5) 5500
  updateProgress s8 "job-1" 70 (some 120) (some 4) (some 5) 7500

/-- `DeepResearchWorkerService.getErrorCode` (substring classification). -/
def getErrorCode (msg : String) : String :=
  if jsIncludes msg "timeout" then "RESEARCH_TIMEOUT"
  else if jsIncludes msg "rate limit" then "RATE_LIMIT_EXCEEDED"
  else if jsIncludes msg "invalid" then "INVALID_INPUT"
  else "RESEARCH_FAILED"

/-! ## Theorems -/

/-- **C1** (code bug evidence).  The reachable store state left by a job whose
research pipeline resolves before the 4-second milestone timer: the pending
timers fire `updateProgress(50)`/`updateProgress(70)` *after* `setResult`, so
the final state has `status = completed` with `result` and `completedAt` set
but `progress = 70 ≠ 100` — the completed-job invariant is violated by the
job subsystem's own scheduled timer callbacks. -/
theorem completed_job_progress_regression :
    (jobsGet workerEarlyFinishStore "job-1").map
      (fun j => (j.status, j.progress, j.result.isSome, j.completedAt.isSome)) =
    some (.completed, 70, true, true) := by
  have e0 : roundToMultipleOf5 (0 : ℚ) = 0 := by rw [roundToMultipleOf5_divInt]; decide
  have e10 : roundToMultipleOf5 (10 : ℚ) = 10 := by rw [roundToMultipleOf5_divInt]; decide
  have e30 : roundToMultipleOf5 (30 : ℚ) = 30 := by rw [roundToMultipleOf5_divInt]; decide
  have e50 : roundToMultipleOf5 (50 : ℚ) = 50 := by rw [roundToMultipleOf5_divInt]; decide
  have e70 : roundToMultipleOf5 (70 : ℚ) = 70 := by rw [roundToMultipleOf5_divInt]; decide
  have e100 : roundToMultipleOf5 (100 : ℚ) = 100 := by rw [roundToMultipleOf5_divInt]; decide
  simp only [workerEarlyFinishStore, updateProgress_eq_int, e0, e10, e30, e50, e70, e100]
  decide

/-- **C2** (code bug evidence).  With `maxRetries = 1`, a first attempt that
fails with a timeout (`callModel` throws `Timeout after 20000ms`) is retried:
the guard `lastError.message.includes('timeout')` is case-sensitive and the
thrown message starts with a capital `T`, so a second attempt runs (after a
1000ms backoff) and its result is returned — contradicting the policy that a
timeout must fail immediately with no further attempt. -/
theorem timeout_is_retried :
    callModelWithRetry 20000 1
      (fun attempt => if attempt = 0 then .axiosTimeout else .httpOk "recovered") =
    (.ok "recovered", 2, [1000]) ∧
    jsIncludes "Timeout after 20000ms" "timeout" = false := by decide

theorem jsMaxInt_eq_max (a b : Int) : jsMaxInt a b = max a b := by
  simp only [jsMaxInt, max_def]

theorem jsMinInt_eq_min (a b : Int) : jsMinInt a b = min a b := by
  simp only [jsMinInt, min_def]

theorem jobsGet_jobsSet (store : JobMap) (jobId : String) (job : DeepResearchJob) :
    jobsGet (jobsSet store jobId job) jobId = some job := by
  induction store with
  | nil => simp [jobsSet, jobsGet]
  | cons e rest ih =>
    by_cases h : e.1 = jobId
    · simp [jobsSet, jobsGet, h]
    · simp [jobsSet, jobsGet, h, ih]

/-- The clamp used by `updateProgress` is a multiple of 5 inside `[0, 100]`. -/
theorem clamp_mult_of_5 (k : Int) :
    jsMaxInt 0 (jsMinInt 100 (k * 5)) = max 0 (min 100 (k * 5)) ∧
    (5 : Int) ∣ jsMaxInt 0 (jsMinInt 100 (k * 5)) ∧
    0 ≤ jsMaxInt 0 (jsMinInt 100 (k * 5)) ∧ jsMaxInt 0 (jsMinInt 100 (k * 5)) ≤ 100 := by
  unfold jsMaxInt jsMinInt
  refine ⟨by rw [max_def, min_def], ?_, ?_, ?_⟩ <;> split_ifs <;> omega

/-- **C9**: for an existing job, `updateProgress` stores
`round(p/5)*5` clamped to `[0,100]`; in particular the stored progress is a
multiple of 5 in `[0,100]`. -/
theorem updateProgress_rounds_and_clamps (store : JobMap) (jobId : String)
    (job : DeepResearchJob) (p : ℚ) (est cur tot : Option Nat) (now : Nat)
    (h : jobsGet store jobId = some job) :
    ∃ job2, jobsGet (updateProgress store jobId p est cur tot now) jobId = some job2 ∧
      job2.progress = max 0 (min 100 (jsRound (p / 5) * 5)) ∧
      (5 : Int) ∣ job2.progress ∧ 0 ≤ job2.progress ∧ job2.progress ≤ 100 := by
  obtain ⟨hc1, hc2, hc3, hc4⟩ := clamp_mult_of_5 (jsRound (p / 5))
  rw [updateProgress_eq_int]
  simp only [updateProgressInt, h]
  cases est <;> cases cur <;> cases tot <;>
    exact ⟨_, jobsGet_jobsSet .., by simpa [roundToMultipleOf5] using hc1,
      by simpa [roundToMultipleOf5] using hc2, by simpa [roundToMultipleOf5] using hc3,
      by simpa [roundToMultipleOf5] using hc4⟩

/-- Witness for C9: a freshly created job updated with progress 42. -/
theorem updateProgress_witness :
    ∃ job2,
      jobsGet (updateProgress (createJob [] "job-9" "q" none 0) "job-9" 42
        none none none 7) "job-9" = some job2 ∧
      job2.progress = max 0 (min 100 (jsRound ((42 : ℚ) / 5) * 5)) ∧
      (5 : Int) ∣ job2.progress ∧ 0 ≤ job2.progress ∧ job2.progress ≤ 100 :=
  updateProgress_rounds_and_clamps (createJob [] "job-9" "q" none 0) "job-9"
    ⟨"job-9", none, .queued, 0, none, none, "q", none, none, 0, 0, none, none, none⟩
    42 none none none 7 (by decide)

theorem length_filter_split (p : α → Bool) (l : List α) :
    (l.filter fun a => !p a).length + (l.filter p).length = l.length := by
  induction l with
  | nil => simp
  | cons a t ih => cases h : p a <;> simp [List.filter_cons, h, ← ih] <;> omega

/-- The removal test of `cleanupOldJobs`, characterized. -/
theorem cleanupCond_iff (now maxAge : Nat) (job : DeepResearchJob) :
    cleanupCond now maxAge job = true ↔
      ((job.status = .completed ∨ job.status = .failed) ∧
        ∃ t, job.completedAt = some t ∧ (now : Int) - t > (maxAge : Int)) := by
  cases h : job.completedAt <;>
    simp [cleanupCond, h, Bool.and_eq_true, Bool.or_eq_true, decide_eq_true_iff]

/-- **C10**: `cleanupOldJobs` removes exactly the terminal jobs whose
`completedAt` lies strictly more than `maxAgeHours` in the past; every other
job stays (unchanged, by membership), and the returned count is the number of
removed entries. -/
theorem cleanupOldJobs_spec (store : JobMap) (maxAgeHours now : Nat) :
    (∀ e : String × DeepResearchJob,
      e ∈ (cleanupOldJobs store maxAgeHours now).1 ↔
        e ∈ store ∧
        ¬((e.2.status = .completed ∨ e.2.status = .failed) ∧
          ∃ t, e.2.completedAt = some t ∧
            (now : Int) - t > ((maxAgeHours * 60 * 60 * 1000 : Nat) : Int))) ∧
    (cleanupOldJobs store maxAgeHours now).1.length +
        (cleanupOldJobs store maxAgeHours now).2 = store.length := by
  constructor
  · intro e
    rw [cleanupOldJobs]
    simp only [List.mem_filter, Bool.not_eq_true']
    rw [← cleanupCond_iff now (maxAgeHours * 60 * 60 * 1000) e.2]
    constructor
    · rintro ⟨h1, h2⟩
      exact ⟨h1, by simp [h2]⟩
    · rintro ⟨h1, h2⟩
      exact ⟨h1, by simpa using h2⟩
  · rw [cleanupOldJobs]
    exact length_filter_split _ store

/-- `mapWithIndex` of a function that depends only on the position and the
answer content is invariant under changes of the model ids. -/
theorem mapWithIndex_answer_proj (f : Nat → String → β) :
    ∀ (i : Nat) (as as2 : List JAnswer), as.map (·.answer) = as2.map (·.answer) →
      mapWithIndex (fun idx item => f idx item.answer) i as =
        mapWithIndex (fun idx item => f idx item.answer) i as2 := by
  intro i as
  induction as generalizing i with
  | nil => intro as2 h; cases as2 <;> simp_all [mapWithIndex]
  | cons a t ih =>
    intro as2 h
    cases as2 with
    | nil => simp_all
    | cons b t2 =>
      simp only [List.map_cons, List.cons.injEq] at h
      simp only [mapWithIndex, h.1, ih (i + 1) t2 h.2]

/-- A left fold that consumes only the round index and feedback text of each
debate round is invariant under changes inside the rounds' answer lists. -/
theorem foldl_round_proj (g : String → Nat → String → String) :
    ∀ (rds rds2 : List DebateRound) (acc : String),
      rds.map (fun d => (d.round, d.judgeFeedback)) =
        rds2.map (fun d => (d.round, d.judgeFeedback)) →
      rds.foldl (fun m d => g m d.round d.judgeFeedback) acc =
        rds2.foldl (fun m d => g m d.round d.judgeFeedback) acc := by
  intro rds
  induction rds with
  | nil => intro rds2 acc h; cases rds2 <;> simp_all
  | cons d t ih =>
    intro rds2 acc h
    cases rds2 with
    | nil => simp_all
    | cons d2 t2 =>
      simp only [List.map_cons, List.cons.injEq, Prod.mk.injEq] at h
      simp only [List.foldl_cons, h.1.1, h.1.2, ih t2 _ h.2]

/-- **C6**: the judge synthesis prompts (system and user message) and the
debate judge-feedback message are functions only of the user prompt, the
answer contents, positional labels, and the rounds' indices/feedback texts;
changing any `modelId` in the inputs leaves every judge-bound prompt string
unchanged. -/
theorem judge_prompts_model_id_noninterference
    (maxLen : Nat) (p : String) (isRM : Bool) (r : Nat)
    (as as2 : List JAnswer) (rds rds2 : List DebateRound)
    (hc : as.map (·.answer) = as2.map (·.answer))
    (hr : rds.map (fun d => (d.round, d.judgeFeedback)) =
      rds2.map (fun d => (d.round, d.judgeFeedback))) :
    judgeAndMergePrompts maxLen p as rds isRM =
      judgeAndMergePrompts maxLen p as2 rds2 isRM ∧
    getJudgeFeedbackMessage r as = getJudgeFeedbackMessage r as2 := by
  have hlen : rds.length = rds2.length := by
    have := congrArg List.length hr; simpa using this
  have hanon : anonymizeAnswers as = anonymizeAnswers as2 :=
    mapWithIndex_answer_proj
      (fun idx a => AnonymizedAnswer.mk ("Answer " ++ fromCharCode (65 + idx)) a) 0 as as2 hc
  have hctx : debateContextBlock rds = debateContextBlock rds2 := by
    simp only [debateContextBlock]
    rw [hlen,
      foldl_round_proj
        (fun m a b => m ++ "Round " ++ toString a ++ " Judge Feedback: " ++ b ++ "\n\n")
        rds rds2 _ hr]
  constructor
  · simp only [judgeAndMergePrompts]
    rw [hanon, hctx, hlen]
  · simp only [getJudgeFeedbackMessage, jsMapIdx]
    rw [mapWithIndex_answer_proj
      (fun idx a => AnonymizedAnswer.mk ("Expert " ++ fromCharCode (65 + idx)) (takeChars a 500))
      0 as as2 hc]

/-- Witness for C6: swapping the model ids behind two fixed answer contents
leaves the judge prompts and the feedback message unchanged. -/
theorem judge_prompts_noninterference_witness :
    judgeAndMergePrompts 5000 "What is Rust?"
        [⟨"openai/gpt-4o", "Rust is a systems language."⟩, ⟨"anthropic/claude", "Rust is fast."⟩]
        [⟨1, "Sharpen the comparison.", [⟨"openai/gpt-4o", "x"⟩]⟩] true =
      judgeAndMergePrompts 5000 "What is Rust?"
        [⟨"meta/llama", "Rust is a systems language."⟩, ⟨"google/gemini", "Rust is fast."⟩]
        [⟨1, "Sharpen the comparison.", [⟨"mistral/mixtral", "y"⟩]⟩] true ∧
    getJudgeFeedbackMessage 1
        [⟨"openai/gpt-4o", "Rust is a systems language."⟩, ⟨"anthropic/claude", "Rust is fast."⟩] =
      getJudgeFeedbackMessage 1
        [⟨"meta/llama", "Rust is a systems language."⟩, ⟨"google/gemini", "Rust is fast."⟩] :=
  judge_prompts_model_id_noninterference 5000 "What is Rust?" true 1 _ _ _ _
    (by decide) (by decide)

theorem mapWithIndex_length (f : Nat → α → β) :
    ∀ (s : Nat) (l : List α), (mapWithIndex f s l).length = l.length := by
  intro s l
  induction l generalizing s with
  | nil => rfl
  | cons a t ih => simp [mapWithIndex, ih]

theorem mapWithIndex_getD (f : Nat → α → β) (d : β) (d0 : α) :
    ∀ (s : Nat) (l : List α) (j : Nat), j < l.length →
      (mapWithIndex f s l).getD j d = f (s + j) (l.getD j d0) := by
  intro s l
  induction l generalizing s with
  | nil => intro j h; simp at h
  | cons a t ih =>
    intro j h
    cases j with
    | zero => simp [mapWithIndex]
    | succ m =>
      have hrec := ih (s + 1) m (by simpa using h)
      rw [show mapWithIndex f s (a :: t) = f s a :: mapWithIndex f (s + 1) t from rfl]
      simp only [List.getD_cons_succ]
      rw [hrec]
      have harith : s + 1 + m = s + (m + 1) := by omega
      rw [harith]

theorem mapWithIndex_congr_id (f : Nat → α → α) (hf : ∀ i a, f i a = a) :
    ∀ (s : Nat) (l : List α), mapWithIndex f s l = l := by
  intro s l
  induction l generalizing s with
  | nil => rfl
  | cons a t ih => simp [mapWithIndex, hf, ih]

theorem refineRound_length (dbT : Nat) (rf : Nat → Nat → AttemptOutcome) (r : Nat)
    (cur : List JAnswer) : (refineRound dbT rf r cur).length = cur.length :=
  mapWithIndex_length _ 0 cur

theorem refineRound_getD (dbT : Nat) (rf : Nat → Nat → AttemptOutcome) (r : Nat)
    (cur : List JAnswer) (j : Nat) (h : j < cur.length) :
    (refineRound dbT rf r cur).getD j default =
      (match (callModelWithRetry dbT 0 (fun _ => rf r j)).1 with
       | .ok s => JAnswer.mk (cur.getD j default).model s
       | .error _ => cur.getD j default) := by
  unfold refineRound jsMapIdx
  rw [mapWithIndex_getD _ default default 0 cur j h]
  simp only [Nat.zero_add]

theorem refineRound_all_fail (dbT : Nat) (rf : Nat → Nat → AttemptOutcome) (r : Nat)
    (cur : List JAnswer)
    (hf : ∀ j, ∃ e, (callModelWithRetry dbT 0 (fun _ => rf r j)).1 = Except.error e) :
    refineRound dbT rf r cur = cur := by
  unfold refineRound jsMapIdx
  refine mapWithIndex_congr_id _ (fun i a => ?_) 0 cur
  obtain ⟨e, he⟩ := hf i
  rw [he]

theorem debateLoop_zero (fbT dbT : Nat) (fb : Nat → AttemptOutcome)
    (rf : Nat → Nat → AttemptOutcome) (r : Nat) (cur : List JAnswer) :
    debateLoop fbT dbT fb rf r 0 cur = ([], cur) := rfl

theorem debateLoop_succ (fbT dbT : Nat) (fb : Nat → AttemptOutcome)
    (rf : Nat → Nat → AttemptOutcome) (r n : Nat) (cur : List JAnswer) :
    debateLoop fbT dbT fb rf r (n + 1) cur =
      (DebateRound.mk r (judgeFeedbackOf fbT fb r) (refineRound dbT rf r cur) ::
         (debateLoop fbT dbT fb rf (r + 1) n (refineRound dbT rf r cur)).1,
       (debateLoop fbT dbT fb rf (r + 1) n (refineRound dbT rf r cur)).2) := rfl

theorem debateLoop_length (fbT dbT : Nat) (fb : Nat → AttemptOutcome)
    (rf : Nat → Nat → AttemptOutcome) :
    ∀ (k r : Nat) (cur : List JAnswer),
      (debateLoop fbT dbT fb rf r k cur).1.length = k := by
  intro k
  induction k with
  | zero => intro r cur; rfl
  | succ n ih => intro r cur; rw [debateLoop_succ]; simp [ih]

theorem debateLoop_round_idx (fbT dbT : Nat) (fb : Nat → AttemptOutcome)
    (rf : Nat → Nat → AttemptOutcome) :
    ∀ (k r i : Nat) (cur : List JAnswer), i < k →
      ((debateLoop fbT dbT fb rf r k cur).1.getD i default).round = r + i := by
  intro k
  induction k with
  | zero => intro r i cur h; omega
  | succ n ih =>
    intro r i cur h
    rw [debateLoop_succ]
    cases i with
    | zero => simp
    | succ m =>
      have hm := ih (r + 1) m (refineRound dbT rf r cur) (by omega)
      simp only [List.getD_cons_succ]
      omega

theorem debateLoop_answers_zero (fbT dbT : Nat) (fb : Nat → AttemptOutcome)
    (rf : Nat → Nat → AttemptOutcome) (k r : Nat) (cur : List JAnswer) (h : 0 < k) :
    ((debateLoop fbT dbT fb rf r k cur).1.getD 0 default).answers =
      refineRound dbT rf r cur := by
  cases k with
  | zero => omega
  | succ n => rw [debateLoop_succ]; rfl

theorem debateLoop_answers_succ (fbT dbT : Nat) (fb : Nat → AttemptOutcome)
    (rf : Nat → Nat → AttemptOutcome) :
    ∀ (k r : Nat) (cur : List JAnswer) (i : Nat), i + 1 < k →
      ((debateLoop fbT dbT fb rf r k cur).1.getD (i + 1) default).answers =
        refineRound dbT rf (r + i + 1)
          ((debateLoop fbT dbT fb rf r k cur).1.getD i default).answers := by
  intro k
  induction k with
  | zero => intro r cur i h; omega
  | succ n ih =>
    intro r cur i h
    rw [debateLoop_succ]
    simp only [List.getD_cons_succ]
    cases i with
    | zero =>
      rw [debateLoop_answers_zero fbT dbT fb rf n (r + 1) (refineRound dbT rf r cur)
        (by omega)]
      rfl
    | succ p =>
      have hp := ih (r + 1) (refineRound dbT rf r cur) p (by omega)
      simp only [List.getD_cons_succ]
      rw [hp]
      have harith : r + 1 + p + 1 = r + (p + 1) + 1 := by omega
      rw [harith]

theorem debateLoop_final (fbT dbT : Nat) (fb : Nat → AttemptOutcome)
    (rf : Nat → Nat → AttemptOutcome) :
    ∀ (k r : Nat) (cur : List JAnswer),
      (debateLoop fbT dbT fb rf r k cur).2 =
        if k = 0 then cur
        else ((debateLoop fbT dbT fb rf r k cur).1.getD (k - 1) default).answers := by
  intro k
  induction k with
  | zero => intro r cur; rfl
  | succ n ih =>
    intro r cur
    rw [debateLoop_succ]
    simp only [if_neg (Nat.succ_ne_zero n), Nat.add_sub_cancel]
    rw [ih (r + 1) (refineRound dbT rf r cur)]
    cases n with
    | zero => simp
    | succ p => simp [List.getD_cons_succ, Nat.add_sub_cancel]

theorem debateLoop_all_fail (fbT dbT : Nat) (fb : Nat → AttemptOutcome)
    (rf : Nat → Nat → AttemptOutcome)
    (hf : ∀ r j, ∃ e, (callModelWithRetry dbT 0 (fun _ => rf r j)).1 = Except.error e) :
    ∀ (k r : Nat) (cur : List JAnswer), (debateLoop fbT dbT fb rf r k cur).2 = cur := by
  intro k
  induction k with
  | zero => intro r cur; rfl
  | succ n ih =>
    intro r cur
    rw [debateLoop_succ]
    show (debateLoop fbT dbT fb rf (r + 1) n (refineRound dbT rf r cur)).2 = cur
    rw [refineRound_all_fail dbT rf r cur (hf r), ih (r + 1) cur]

theorem map_copy_id (l : List JAnswer) :
    l.map (fun item => JAnswer.mk item.model item.answer) = l := by
  induction l with
  | nil => rfl
  | cons a t ih => simp [ih]

/-- **C4**: `conductIterativeDebate` records exactly `R` rounds with indices
`1…R` in order; after each round a model's answer is the refinement result if
its call succeeded and its previous answer otherwise; the final answers are
the last round's answers (the initial answers for `R = 0`); and when every
refinement call fails (in particular for `R = 0`) the initial answers survive
unchanged.  The function is total, so the debate never raises an error. -/
theorem conductIterativeDebate_spec (R fbT dbT : Nat) (fb : Nat → AttemptOutcome)
    (rf : Nat → Nat → AttemptOutcome) (prompt : String) (initial : List JAnswer) :
    (conductIterativeDebate R fbT dbT fb rf prompt initial).debateRounds.length = R ∧
    (∀ i, i < R →
      ((conductIterativeDebate R fbT dbT fb rf prompt initial).debateRounds.getD i
        default).round = i + 1) ∧
    (∀ j, 0 < R → j < initial.length →
      ((conductIterativeDebate R fbT dbT fb rf prompt initial).debateRounds.getD 0
          default).answers.getD j default =
        (match (callModelWithRetry dbT 0 (fun _ => rf 1 j)).1 with
         | .ok s => JAnswer.mk (initial.getD j default).model s
         | .error _ => initial.getD j default)) ∧
    (∀ i j, i + 1 < R → j < initial.length →
      ((conductIterativeDebate R fbT dbT fb rf prompt initial).debateRounds.getD (i + 1)
          default).answers.getD j default =
        (match (callModelWithRetry dbT 0 (fun _ => rf (i + 2) j)).1 with
         | .ok s => JAnswer.mk
             (((conductIterativeDebate R fbT dbT fb rf prompt initial).debateRounds.getD i
               default).answers.getD j default).model s
         | .error _ =>
             ((conductIterativeDebate R fbT dbT fb rf prompt initial).debateRounds.getD i
               default).answers.getD j default)) ∧
    ((conductIterativeDebate R fbT dbT fb rf prompt initial).finalAnswers =
      if R = 0 then initial
      else ((conductIterativeDebate R fbT dbT fb rf prompt initial).debateRounds.getD
        (R - 1) default).answers) ∧
    ((∀ r j, ∃ e, (callModelWithRetry dbT 0 (fun _ => rf r j)).1 = Except.error e) →
      (conductIterativeDebate R fbT dbT fb rf prompt initial).finalAnswers = initial) := by
  unfold conductIterativeDebate
  rw [map_copy_id]
  have hlen_ans : ∀ i, i < R →
      ((debateLoop fbT dbT fb rf 1 R initial).1.getD i default).answers.length =
        initial.length := by
    intro i
    induction i with
    | zero =>
      intro h0
      rw [debateLoop_answers_zero fbT dbT fb rf R 1 initial h0, refineRound_length]
    | succ m ih =>
      intro hm
      rw [debateLoop_answers_succ fbT dbT fb rf R 1 initial m hm, refineRound_length]
      exact ih (by omega)
  refine ⟨debateLoop_length .., ?_, ?_, ?_, ?_, ?_⟩
  · intro i hi
    have := debateLoop_round_idx fbT dbT fb rf R 1 i initial hi
    simpa [Nat.add_comm] using this
  · intro j h0 hj
    rw [debateLoop_answers_zero fbT dbT fb rf R 1 initial h0,
      refineRound_getD dbT rf 1 initial j hj]
  · intro i j hi hj
    rw [debateLoop_answers_succ fbT dbT fb rf R 1 initial i hi,
      refineRound_getD dbT rf (1 + i + 1) _ j (by rw [hlen_ans i (by omega)]; exact hj)]
    have harith : 1 + i + 1 = i + 2 := by omega
    rw [harith]
  · exact debateLoop_final ..
  · intro hf
    exact debateLoop_all_fail fbT dbT fb rf hf R 1 initial

/-- Witness for C4: two rounds in which every refinement call fails with a
network error leave the initial answers unchanged and record exactly 2
rounds. -/
theorem conductIterativeDebate_witness :
    (conductIterativeDebate 2 8000 10000 (fun _ => .httpOk "feedback")
      (fun _ _ => .axiosNetworkError "socket hang up") "Q"
      [⟨"m1", "a1"⟩, ⟨"m2", "a2"⟩]).debateRounds.length = 2 ∧
    (conductIterativeDebate 2 8000 10000 (fun _ => .httpOk "feedback")
      (fun _ _ => .axiosNetworkError "socket hang up") "Q"
      [⟨"m1", "a1"⟩, ⟨"m2", "a2"⟩]).finalAnswers = [⟨"m1", "a1"⟩, ⟨"m2", "a2"⟩] :=
  ⟨(conductIterativeDebate_spec 2 8000 10000 (fun _ => .httpOk "feedback")
      (fun _ _ => .axiosNetworkError "socket hang up") "Q"
      [⟨"m1", "a1"⟩, ⟨"m2", "a2"⟩]).1,
   (conductIterativeDebate_spec 2 8000 10000 (fun _ => .httpOk "feedback")
      (fun _ _ => .axiosNetworkError "socket hang up") "Q"
      [⟨"m1", "a1"⟩, ⟨"m2", "a2"⟩]).2.2.2.2.2 (fun _ _ => ⟨_, rfl⟩)⟩

/-- The `Set`-fold of the aggregation equals first-occurrence deduplication
appended to the seed. -/
theorem foldl_setAdd_dedup :
    ∀ (l acc : List String), l.foldl setAdd acc = acc ++ dedupFirstAux acc l := by
  intro l
  induction l with
  | nil => intro acc; simp [dedupFirstAux]
  | cons u us ih =>
    intro acc
    by_cases hu : u ∈ acc
    · simp only [List.foldl_cons, setAdd, if_pos hu, dedupFirstAux, ih]
    · simp only [List.foldl_cons, setAdd, if_neg hu, dedupFirstAux, ih, List.append_assoc,
        List.singleton_append]

theorem foldl_guard_eq_setAdd (l : List String) :
    ∀ (acc : List String), (∀ u ∈ l, u ≠ "") →
      l.foldl (fun a u => if u ≠ "" then setAdd a u else a) acc = l.foldl setAdd acc := by
  induction l with
  | nil => intro acc _; rfl
  | cons u us ih =>
    intro acc h
    simp only [List.foldl_cons, if_pos (h u (List.mem_cons_self u us))]
    exact ih _ (fun v hv => h v (List.mem_cons_of_mem u hv))

theorem foldl_results_guard (results : List ResearchResult) :
    ∀ (acc : List String), (∀ r ∈ results, r.url ≠ "") →
      results.foldl (fun acc r => if r.url ≠ "" then setAdd acc r.url else acc) acc =
        (results.map (·.url)).foldl setAdd acc := by
  induction results with
  | nil => intro acc _; rfl
  | cons r rs ih =>
    intro acc h
    simp only [List.foldl_cons, List.map_cons, if_pos (h r (List.mem_cons_self r rs))]
    exact ih _ (fun v hv => h v (List.mem_cons_of_mem r hv))

theorem foldl_modelAnswers_guard (mas : List ModelAnswer) :
    ∀ (acc : List String), (∀ ma ∈ mas, ∀ u ∈ ma.citations, u ≠ "") →
      mas.foldl
        (fun acc ma => ma.citations.foldl (fun a u => if u ≠ "" then setAdd a u else a) acc)
        acc =
      (mas.map (·.citations)).flatten.foldl setAdd acc := by
  induction mas with
  | nil => intro acc _; rfl
  | cons ma rest ih =>
    intro acc h
    simp only [List.foldl_cons, List.map_cons, List.flatten_cons, List.foldl_append]
    rw [foldl_guard_eq_setAdd _ _ (h ma (List.mem_cons_self ma rest))]
    exact ih _ (fun v hv => h v (List.mem_cons_of_mem ma hv))

/-- Every url collected by the extraction loop comes from an in-range source
index and is non-empty. -/
theorem pushCitation_fold_inv (results : List ResearchResult)
    (P : String → Prop)
    (hP : ∀ n, 1 ≤ n → n - 1 < results.length →
      (results.getD (n - 1) default).url ≠ "" → P ((results.getD (n - 1) default).url)) :
    ∀ (ns : List Nat) (acc : List String), (∀ u ∈ acc, P u) →
      ∀ u ∈ ns.foldl (pushCitation results) acc, P u := by
  intro ns
  induction ns with
  | nil => intro acc hacc u hu; exact hacc u hu
  | cons n rest ih =>
    intro acc hacc u hu
    refine ih (pushCitation results acc n) ?_ u hu
    intro v hv
    unfold pushCitation at hv
    split at hv
    · next hcond =>
      split at hv
      · next hcond2 =>
        rcases List.mem_append.mp hv with h1 | h1
        · exact hacc v h1
        · rcases List.mem_singleton.mp h1 with rfl
          exact hP n hcond.1 hcond.2 hcond2.1
      · exact hacc v hv
    · exact hacc v hv

theorem extractCitations_sound (answer : String) (ctx : ResearchContext) :
    ∀ u ∈ extractCitations answer ctx,
      u ≠ "" ∧ ∃ n, 1 ≤ n ∧ n - 1 < ctx.results.length ∧
        u = (ctx.results.getD (n - 1) default).url := by
  unfold extractCitations
  refine pushCitation_fold_inv ctx.results _ ?_ _ [] (by simp)
  intro n h1 h2 h3
  exact ⟨h3, n, h1, h2, rfl⟩

/-- **C8**: the aggregated citations equal the order-preserving,
first-occurrence deduplication of (a) the final answer's extracted citations,
(b) every model answer's extracted citations, and (c) every research-source
url; and every extracted citation is the url of an in-range `[Source N]`
match. -/
theorem extractAndAggregateCitations_spec (finalAnswer : String)
    (ctx : ResearchContext) (mas : List ModelAnswer)
    (hurl : ∀ r ∈ ctx.results, r.url ≠ "")
    (hcit : ∀ ma ∈ mas, ma.citations = extractCitations ma.answer ctx) :
    extractAndAggregateCitations finalAnswer ctx mas =
      dedupFirst (extractCitations finalAnswer ctx ++
        (mas.map (·.citations)).flatten ++ ctx.results.map (·.url)) ∧
    (∀ u ∈ extractCitations finalAnswer ctx,
      ∃ n, 1 ≤ n ∧ n - 1 < ctx.results.length ∧
        u = (ctx.results.getD (n - 1) default).url) := by
  constructor
  · show ctx.results.foldl (fun acc r => if r.url ≠ "" then setAdd acc r.url else acc)
        (mas.foldl (fun acc ma => ma.citations.foldl
            (fun a u => if u ≠ "" then setAdd a u else a) acc)
          ((extractCitations finalAnswer ctx).foldl setAdd [])) = _
    rw [foldl_modelAnswers_guard mas _ (fun ma hma u hu => by
      rw [hcit ma hma] at hu
      exact (extractCitations_sound ma.answer ctx u hu).1)]
    rw [foldl_results_guard ctx.results _ hurl]
    rw [← List.foldl_append, ← List.foldl_append]
    rw [foldl_setAdd_dedup]
    simp [dedupFirst, List.append_assoc]
  · intro u hu
    exact (extractCitations_sound finalAnswer ctx u hu).2

/-- A concrete research context for the citation witness. -/
def c8ctx : ResearchContext :=
  ⟨"q", [⟨"A", "https://a.example", "", "a"⟩, ⟨"B", "https://b.example", "", "b"⟩], "s", []⟩

/-- A concrete model answer (with its extracted citations) for the witness. -/
def c8mas : List ModelAnswer :=
  [⟨"m", "Source 2 says so", extractCitations "Source 2 says so" c8ctx⟩]

/-- Witness for C8: two sources, a final answer citing `[Source 1]` and `[2]`,
one model answer citing `Source 2`. -/
theorem extractAndAggregateCitations_witness :
    extractAndAggregateCitations "See [Source 1] and [2]." c8ctx c8mas =
      dedupFirst (extractCitations "See [Source 1] and [2]." c8ctx ++
        (c8mas.map (·.citations)).flatten ++ c8ctx.results.map (·.url)) :=
  (extractAndAggregateCitations_spec "See [Source 1] and [2]." c8ctx c8mas
    (by decide) (by decide)).1

/-! #### Remote-client and fan-out lemmas -/

theorem callModel_ok_ne_empty (t : Nat) (o : AttemptOutcome) (s : String)
    (h : callModel t o = .ok s) : s ≠ "" := by
  cases o with
  | httpOk content =>
    by_cases hc : content = ""
    · simp [callModel, hc] at h
    · simp [callModel, hc] at h
      subst h
      exact hc
  | axiosTimeout => simp [callModel] at h
  | axiosHttpError status body => simp [callModel] at h
  | axiosNetworkError msg => simp [callModel] at h

theorem retryLoop_ok_ne_empty (t mr : Nat) (o : Nat → AttemptOutcome) :
    ∀ (fuel attempt : Nat) (s : String),
      (retryLoop t mr o attempt fuel).1 = .ok s → s ≠ "" := by
  intro fuel
  induction fuel with
  | zero => intro attempt s h; cases h
  | succ n ih =>
    intro attempt s h
    unfold retryLoop at h
    split at h
    · next heq => cases h; exact callModel_ok_ne_empty t (o attempt) s heq
    · next heq =>
      split at h
      · cases h
      · exact ih (attempt + 1) s h

theorem callModelWithRetry_ok_ne_empty (t mr : Nat) (o : Nat → AttemptOutcome)
    (s : String) (h : (callModelWithRetry t mr o).1 = .ok s) : s ≠ "" :=
  retryLoop_ok_ne_empty t mr o (mr + 1) 0 s h

theorem callSingleModel_model (cfg : MergeCfg) (m : String) (o : Nat → AttemptOutcome) :
    (callSingleModel cfg m o).model = m := by
  unfold callSingleModel
  cases (callModelWithRetry cfg.perModelTimeoutMs 1 o).1 <;> rfl

/-- Per-entry invariant of `callSingleModel` (the `ModelCallResult` contract):
success carries a non-empty answer, failure carries `null`. -/
theorem callSingleModel_inv (cfg : MergeCfg) (m : String) (o : Nat → AttemptOutcome) :
    ((callSingleModel cfg m o).success = true →
      ∃ a, (callSingleModel cfg m o).answer = some a ∧ a ≠ "") ∧
    ((callSingleModel cfg m o).success = false → (callSingleModel cfg m o).answer = none) := by
  unfold callSingleModel
  cases h : (callModelWithRetry cfg.perModelTimeoutMs 1 o).1 with
  | ok s =>
    constructor
    · intro _
      refine ⟨s, rfl, ?_⟩
      exact callModelWithRetry_ok_ne_empty cfg.perModelTimeoutMs 1 o s h
    · intro hf
      exact nomatch hf
  | error e =>
    constructor
    · intro ht
      exact nomatch ht
    · intro _
      rfl

theorem map_getD_range (l : List α) (d : α) :
    (List.range l.length).map (fun i => l.getD i d) = l := by
  induction l with
  | nil => rfl
  | cons a t ih =>
    rw [List.length_cons, List.range_succ_eq_map, List.map_cons, List.map_map]
    simp only [Function.comp, List.getD_cons_zero, List.getD_cons_succ, List.cons.injEq,
      true_and]
    exact ih

theorem fanStep_modelResults (cfg : MergeCfg) (jm : String) (st : FanState)
    (r : ModelCallResult) :
    (fanStep cfg jm st r).modelResults = st.modelResults ++ [r] := by
  simp only [fanStep]
  split_ifs <;> rfl

theorem fanStep_successes (cfg : MergeCfg) (jm : String) (st : FanState)
    (r : ModelCallResult) :
    (fanStep cfg jm st r).successfulResults =
      st.successfulResults ++ (if r.success then [r] else []) := by
  simp only [fanStep]
  split_ifs with h1 h2 <;> simp [h1]

theorem fanStep_calls (cfg : MergeCfg) (jm : String) (st : FanState)
    (r : ModelCallResult) :
    ∀ c ∈ (fanStep cfg jm st r).judgeCalls,
      c ∈ st.judgeCalls ∨ (c.rounds = [] ∧ c.customModel = some jm) := by
  simp only [fanStep]
  split_ifs <;> intro c hc
  · rcases List.mem_append.mp hc with h | h
    · exact Or.inl h
    · rcases List.mem_singleton.mp h with rfl
      exact Or.inr ⟨rfl, rfl⟩
  · exact Or.inl hc
  · exact Or.inl hc

theorem fanStep_started_nonempty (cfg : MergeCfg) (jm : String) (st : FanState)
    (r : ModelCallResult)
    (hst : st.judgeStarted = true → st.judgeCalls ≠ []) :
    (fanStep cfg jm st r).judgeStarted = true → (fanStep cfg jm st r).judgeCalls ≠ [] := by
  simp only [fanStep]
  split_ifs <;> intro h
  · simp
  · exact hst h
  · exact hst h

theorem foldl_fanStep_modelResults (cfg : MergeCfg) (jm : String) :
    ∀ (rs : List ModelCallResult) (st : FanState),
      (rs.foldl (fanStep cfg jm) st).modelResults = st.modelResults ++ rs := by
  intro rs
  induction rs with
  | nil => intro st; simp
  | cons r rest ih =>
    intro st
    rw [List.foldl_cons, ih, fanStep_modelResults]
    simp

theorem foldl_fanStep_successes (cfg : MergeCfg) (jm : String) :
    ∀ (rs : List ModelCallResult) (st : FanState),
      (rs.foldl (fanStep cfg jm) st).successfulResults =
        st.successfulResults ++ rs.filter (·.success) := by
  intro rs
  induction rs with
  | nil => intro st; simp
  | cons r rest ih =>
    intro st
    rw [List.foldl_cons, ih, fanStep_successes]
    cases h : r.success <;> simp [List.filter_cons, h]

theorem foldl_fanStep_calls (cfg : MergeCfg) (jm : String) :
    ∀ (rs : List ModelCallResult) (st : FanState),
      ∀ c ∈ (rs.foldl (fanStep cfg jm) st).judgeCalls,
        c ∈ st.judgeCalls ∨ (c.rounds = [] ∧ c.customModel = some jm) := by
  intro rs
  induction rs with
  | nil => intro st c hc; exact Or.inl hc
  | cons r rest ih =>
    intro st c hc
    rcases ih (fanStep cfg jm st r) c hc with h | h
    · exact fanStep_calls cfg jm st r c h
    · exact Or.inr h

theorem foldl_fanStep_started_nonempty (cfg : MergeCfg) (jm : String) :
    ∀ (rs : List ModelCallResult) (st : FanState),
      (st.judgeStarted = true → st.judgeCalls ≠ []) →
      ((rs.foldl (fanStep cfg jm) st).judgeStarted = true →
        (rs.foldl (fanStep cfg jm) st).judgeCalls ≠ []) := by
  intro rs
  induction rs with
  | nil => intro st h; exact h
  | cons r rest ih =>
    intro st h
    exact ih (fanStep cfg jm st r) (fanStep_started_nonempty cfg jm st r h)

/-- The fan-out results in either scheduling branch. -/
def fanResultsOf (cfg : MergeCfg) (ms : List String) (arrival : List Nat)
    (modelOracle : Nat → Nat → AttemptOutcome) : List ModelCallResult :=
  if cfg.enableEarlyJudge then
    arrival.map (fun i => callSingleModel cfg (ms.getD i "") (modelOracle i))
  else
    (List.range ms.length).map (fun i => callSingleModel cfg (ms.getD i "") (modelOracle i))

theorem fanPhase_inv (cfg : MergeCfg) (jm : String) (ms : List String)
    (arrival : List Nat) (modelOracle : Nat → Nat → AttemptOutcome) :
    (fanPhase cfg jm ms arrival modelOracle).modelResults =
      fanResultsOf cfg ms arrival modelOracle ∧
    (fanPhase cfg jm ms arrival modelOracle).successfulResults =
      (fanResultsOf cfg ms arrival modelOracle).filter (·.success) ∧
    (∀ c ∈ (fanPhase cfg jm ms arrival modelOracle).judgeCalls,
      c.rounds = [] ∧ c.customModel = some jm) ∧
    ((fanPhase cfg jm ms arrival modelOracle).judgeStarted = true →
      (fanPhase cfg jm ms arrival modelOracle).judgeCalls ≠ []) := by
  simp only [fanPhase, fanResultsOf]
  split_ifs with h
  · refine ⟨?_, ?_, ?_, ?_⟩
    · rw [foldl_fanStep_modelResults]; rfl
    · rw [foldl_fanStep_successes]; rfl
    · intro c hc
      rcases foldl_fanStep_calls cfg jm _ _ c hc with hmem | hp
      · exact absurd hmem (List.not_mem_nil c)
      · exact hp
    · exact foldl_fanStep_started_nonempty cfg jm _ _ (fun hh => nomatch hh)
  · refine ⟨rfl, rfl, ?_, ?_⟩
    · intro c hc
      exact absurd hc (List.not_mem_nil c)
    · intro hh
      exact nomatch hh

/-- After validation, `merge` is fan-out followed by the post-fan phases. -/
theorem merge_valid_eq (cfg : MergeCfg) (prompt : String) (mode : Option String)
    (ms : List String) (cj : Option String) (arrival : List Nat)
    (mo : Nat → Nat → AttemptOutcome) (jo : Nat → AttemptOutcome)
    (fb : Nat → AttemptOutcome) (rf : Nat → Nat → AttemptOutcome)
    (hms : ms ≠ []) (hp1 : ¬(prompt = "" ∨ (jsTrim prompt).length = 0))
    (hp2 : ¬(prompt.length > cfg.maxPromptLength)) :
    merge cfg prompt mode (some ms) cj arrival mo jo fb rf =
      mergeAfterFan cfg prompt (jsOrString cj cfg.judgeModel) jo fb rf
        (fanPhase cfg (jsOrString cj cfg.judgeModel) ms arrival mo) := by
  simp only [merge]
  rw [if_neg (by simpa using hms), if_neg hp1, if_neg hp2]

theorem lateJudgeStart_modelResults (jm : String) (st : FanState) :
    (lateJudgeStart jm st).modelResults = st.modelResults := by
  simp only [lateJudgeStart]; split_ifs <;> rfl

theorem lateJudgeStart_successes (jm : String) (st : FanState) :
    (lateJudgeStart jm st).successfulResults = st.successfulResults := by
  simp only [lateJudgeStart]; split_ifs <;> rfl

/-- The post-fan phase keeps the fan-out lists; both the success payload and
the all-models-failed payload are exactly the fan-out result list. -/
theorem mergeAfterFan_fields (cfg : MergeCfg) (prompt jm : String)
    (jo : Nat → AttemptOutcome) (fb : Nat → AttemptOutcome)
    (rf : Nat → Nat → AttemptOutcome) (st : FanState) :
    (mergeAfterFan cfg prompt jm jo fb rf st).fanoutResults = st.modelResults ∧
    (mergeAfterFan cfg prompt jm jo fb rf st).successfulResults = st.successfulResults ∧
    (∀ m L, (mergeAfterFan cfg prompt jm jo fb rf st).result = .ok ⟨m, L⟩ →
      L = st.modelResults) ∧
    (∀ L, (mergeAfterFan cfg prompt jm jo fb rf st).result = .error (.allModelsFailed L) →
      L = st.modelResults) := by
  refine ⟨?_, ?_, fun m L h => ?_, fun L h => ?_⟩ <;>
    by_cases h1 : (!st.judgeStarted) = true ∧ st.successfulResults.length = 0
  · simp only [mergeAfterFan, if_pos h1]
  · simp only [mergeAfterFan, if_neg h1]
    exact lateJudgeStart_modelResults jm st
  · simp only [mergeAfterFan, if_pos h1]
  · simp only [mergeAfterFan, if_neg h1]
    exact lateJudgeStart_successes jm st
  · simp only [mergeAfterFan, if_pos h1] at h
    exact absurd h (by simp)
  · simp only [mergeAfterFan, if_neg h1] at h
    injection h with h2
    have h3 := congrArg MergeOutcome.model_answers h2
    simpa [lateJudgeStart_modelResults] using h3.symm
  · simp only [mergeAfterFan, if_pos h1] at h
    injection h with h2
    injection h2 with h3
    exact h3.symm
  · simp only [mergeAfterFan, if_neg h1] at h
    exact absurd h (by simp)

theorem lateJudgeStart_calls_nonempty (jm : String) (st : FanState)
    (hne : st.judgeStarted = true → st.judgeCalls ≠ []) :
    (lateJudgeStart jm st).judgeCalls ≠ [] := by
  simp only [lateJudgeStart]
  split_ifs with h
  · simp
  · apply hne
    revert h
    cases st.judgeStarted <;> simp

theorem lateJudgeStart_calls_shape (jm : String) (st : FanState)
    (hst : ∀ c ∈ st.judgeCalls, c.rounds = [] ∧ c.customModel = some jm) :
    ∀ c ∈ (lateJudgeStart jm st).judgeCalls, c.rounds = [] ∧ c.customModel = some jm := by
  simp only [lateJudgeStart]
  split_ifs <;> intro c hc
  · rcases List.mem_append.mp hc with h | h
    · exact hst c h
    · rcases List.mem_singleton.mp h with rfl
      exact ⟨rfl, rfl⟩
  · exact hst c hc

theorem relaunchJudge_of_ne (fa : List JAnswer) (dr : List DebateRound)
    (calls : List JudgeCall) (hne : calls ≠ []) :
    relaunchJudge fa dr calls =
      if dr.length > 0 then calls ++ [⟨fa, dr, none⟩] else calls := by
  simp only [relaunchJudge]
  rw [if_neg (fun h => hne (List.length_eq_zero.mp h))]

/-- Shape of the judge launches after fan-out: calls logged by the fan-out
phase keep their `customJudgeModel` argument; the post-debate re-launch
passes none. -/
theorem mergeAfterFan_calls (cfg : MergeCfg) (prompt jm : String)
    (jo : Nat → AttemptOutcome) (fb : Nat → AttemptOutcome)
    (rf : Nat → Nat → AttemptOutcome) (st : FanState)
    (hst : ∀ c ∈ st.judgeCalls, c.rounds = [] ∧ c.customModel = some jm)
    (hne : st.judgeStarted = true → st.judgeCalls ≠ []) :
    ∀ c ∈ (mergeAfterFan cfg prompt jm jo fb rf st).judgeCalls,
      (c.rounds = [] → c.customModel = some jm) ∧
      (c.rounds ≠ [] → c.customModel = none) := by
  intro c hc
  by_cases h1 : (!st.judgeStarted) = true ∧ st.successfulResults.length = 0
  · simp only [mergeAfterFan, if_pos h1] at hc
    exact ⟨fun _ => (hst c hc).2, fun hr => absurd (hst c hc).1 hr⟩
  · simp only [mergeAfterFan, if_neg h1] at hc
    rw [relaunchJudge_of_ne _ _ _ (lateJudgeStart_calls_nonempty jm st hne)] at hc
    have hshape := lateJudgeStart_calls_shape jm st hst
    split_ifs at hc with hdr
    · rcases List.mem_append.mp hc with hb | hb
      · exact ⟨fun _ => (hshape c hb).2, fun hr => absurd (hshape c hb).1 hr⟩
      · rcases List.mem_singleton.mp hb with rfl
        refine ⟨fun hr => ?_, fun _ => rfl⟩
        rw [show (⟨(debatePhase cfg prompt fb rf (lateJudgeStart jm st)).2,
          (debatePhase cfg prompt fb rf (lateJudgeStart jm st)).1, none⟩ : JudgeCall).rounds =
          (debatePhase cfg prompt fb rf (lateJudgeStart jm st)).1 from rfl] at hr
        rw [hr] at hdr
        simp at hdr
    · exact ⟨fun _ => (hshape c hc).2, fun hr => absurd (hshape c hc).1 hr⟩

/-- Config for the judge-override counterexample: early judge and debate
enabled, one debate round, threshold 2, default judge `default-judge`. -/
def c3cfg : MergeCfg := ⟨"default-judge", 20000, 8000, 2, true, true, 1, 25000, 10000, 8000⟩

/-- A run with two succeeding models and a `judgeModelOverride`; debate runs,
so the judge is re-launched with debate context. -/
def c3run : MergeRun :=
  merge c3cfg "What is 2+2?" none (some ["m1", "m2"]) (some "override-judge") [0, 1]
    (fun _ _ => .httpOk "four") (fun _ => .httpOk "merged") (fun _ => .httpOk "feedback")
    (fun _ _ => .httpOk "refined")

/-- **C3, counterexample**: in an orchestration carrying the override
`override-judge`, not every judge launch resolves to the override — the
post-debate re-launch passes no custom model and thus uses the configured
default judge model. -/
theorem merge_judge_override_counterexample :
    ¬ (∀ c ∈ c3run.judgeCalls, resolvedJudgeModel c3cfg.judgeModel c = "override-judge") := by
  decide

/-- **C3, amended**: with a (non-empty) `judgeModelOverride`, every judge call
launched without debate context (the early and late judge calls) is made
against the override, while the judge call re-launched with debate rounds
passes no override and resolves to the configured default judge model. -/
theorem merge_judge_override_amended (cfg : MergeCfg) (prompt : String)
    (mode : Option String) (ms : List String) (j : String) (arrival : List Nat)
    (mo : Nat → Nat → AttemptOutcome) (jo : Nat → AttemptOutcome)
    (fb : Nat → AttemptOutcome) (rf : Nat → Nat → AttemptOutcome) (hj : j ≠ "") :
    ∀ c ∈ (merge cfg prompt mode (some ms) (some j) arrival mo jo fb rf).judgeCalls,
      (c.rounds = [] → resolvedJudgeModel cfg.judgeModel c = j) ∧
      (c.rounds ≠ [] → resolvedJudgeModel cfg.judgeModel c = cfg.judgeModel) := by
  intro c hc
  simp only [merge] at hc
  split_ifs at hc with h1 h2 h3
  · exact absurd hc (List.not_mem_nil c)
  · exact absurd hc (List.not_mem_nil c)
  · exact absurd hc (List.not_mem_nil c)
  · have jmeq : jsOrString (some j) cfg.judgeModel = j := by simp [jsOrString, hj]
    rw [jmeq] at hc
    obtain ⟨_, _, hcalls, hne⟩ := fanPhase_inv cfg j ms arrival mo
    have hcc := mergeAfterFan_calls cfg prompt j jo fb rf _ hcalls hne c hc
    refine ⟨fun hr => ?_, fun hr => ?_⟩
    · rw [resolvedJudgeModel, hcc.1 hr]
      simp [jsOrString, hj]
    · rw [resolvedJudgeModel, hcc.2 hr]
      rfl

/-- Witness for the amended C3, on the counterexample run: the pre-debate
judge launch resolves to the override and the post-debate one to the
default. -/
theorem merge_judge_override_amended_witness :
    resolvedJudgeModel c3cfg.judgeModel (c3run.judgeCalls.getD 0 default) =
      "override-judge" ∧
    resolvedJudgeModel c3cfg.judgeModel (c3run.judgeCalls.getD 1 default) =
      c3cfg.judgeModel :=
  ⟨(merge_judge_override_amended c3cfg "What is 2+2?" none ["m1", "m2"] "override-judge"
      [0, 1] (fun _ _ => .httpOk "four") (fun _ => .httpOk "merged")
      (fun _ => .httpOk "feedback") (fun _ _ => .httpOk "refined") (by decide)
      (c3run.judgeCalls.getD 0 default) (by decide)).1 (by decide),
   (merge_judge_override_amended c3cfg "What is 2+2?" none ["m1", "m2"] "override-judge"
      [0, 1] (fun _ _ => .httpOk "four") (fun _ => .httpOk "merged")
      (fun _ => .httpOk "feedback") (fun _ _ => .httpOk "refined") (by decide)
      (c3run.judgeCalls.getD 1 default) (by decide)).2 (by decide)⟩

theorem mapWithIndex_mem (f : Nat → α → β) :
    ∀ (s : Nat) (l : List α) (b : β), b ∈ mapWithIndex f s l → ∃ i a, a ∈ l ∧ b = f i a := by
  intro s l
  induction l generalizing s with
  | nil => intro b hb; exact absurd hb (List.not_mem_nil b)
  | cons a t ih =>
    intro b hb
    rcases List.mem_cons.mp hb with h | h
    · exact ⟨s, a, List.mem_cons_self a t, h⟩
    · obtain ⟨i, a2, ha2, hb2⟩ := ih (s + 1) b h
      exact ⟨i, a2, List.mem_cons_of_mem a ha2, hb2⟩

theorem refineRound_answers_ne (dbT : Nat) (rf : Nat → Nat → AttemptOutcome) (r : Nat)
    (cur : List JAnswer) (h : ∀ a ∈ cur, a.answer ≠ "") :
    ∀ a ∈ refineRound dbT rf r cur, a.answer ≠ "" := by
  intro b hb
  obtain ⟨i, a, ha, hba⟩ := mapWithIndex_mem _ 0 cur b hb
  subst hba
  cases hcall : (callModelWithRetry dbT 0 (fun _ => rf r i)).1 with
  | ok s =>
    simp only [hcall]
    exact callModelWithRetry_ok_ne_empty dbT 0 _ s hcall
  | error e =>
    simp only [hcall]
    exact h a ha

theorem debateLoop_answers_all_ne (fbT dbT : Nat) (fb : Nat → AttemptOutcome)
    (rf : Nat → Nat → AttemptOutcome) :
    ∀ (k r : Nat) (cur : List JAnswer), (∀ a ∈ cur, a.answer ≠ "") →
      ∀ a ∈ (debateLoop fbT dbT fb rf r k cur).2, a.answer ≠ "" := by
  intro k
  induction k with
  | zero => intro r cur h; exact h
  | succ n ih =>
    intro r cur h
    rw [debateLoop_succ]
    exact ih (r + 1) (refineRound dbT rf r cur) (refineRound_answers_ne dbT rf r cur h)

theorem debateLoop_final_length (fbT dbT : Nat) (fb : Nat → AttemptOutcome)
    (rf : Nat → Nat → AttemptOutcome) :
    ∀ (k r : Nat) (cur : List JAnswer),
      (debateLoop fbT dbT fb rf r k cur).2.length = cur.length := by
  intro k
  induction k with
  | zero => intro r cur; rfl
  | succ n ih =>
    intro r cur
    rw [debateLoop_succ]
    show (debateLoop fbT dbT fb rf (r + 1) n (refineRound dbT rf r cur)).2.length = _
    rw [ih, refineRound_length]

theorem conductIterativeDebate_answers (R fbT dbT : Nat) (fb : Nat → AttemptOutcome)
    (rf : Nat → Nat → AttemptOutcome) (prompt : String) (initial : List JAnswer)
    (h : ∀ a ∈ initial, a.answer ≠ "") :
    (conductIterativeDebate R fbT dbT fb rf prompt initial).finalAnswers.length =
      initial.length ∧
    ∀ a ∈ (conductIterativeDebate R fbT dbT fb rf prompt initial).finalAnswers,
      a.answer ≠ "" := by
  unfold conductIterativeDebate
  rw [map_copy_id]
  exact ⟨debateLoop_final_length fbT dbT fb rf R 1 initial,
    debateLoop_answers_all_ne fbT dbT fb rf R 1 initial h⟩

theorem fanStep_started_succ (cfg : MergeCfg) (jm : String) (st : FanState)
    (r : ModelCallResult)
    (h : st.judgeStarted = true → st.successfulResults ≠ []) :
    (fanStep cfg jm st r).judgeStarted = true →
      (fanStep cfg jm st r).successfulResults ≠ [] := by
  simp only [fanStep]
  split_ifs <;> intro hh
  · simp
  · simp
  · exact h hh

theorem foldl_fanStep_started_succ (cfg : MergeCfg) (jm : String) :
    ∀ (rs : List ModelCallResult) (st : FanState),
      (st.judgeStarted = true → st.successfulResults ≠ []) →
      ((rs.foldl (fanStep cfg jm) st).judgeStarted = true →
        (rs.foldl (fanStep cfg jm) st).successfulResults ≠ []) := by
  intro rs
  induction rs with
  | nil => intro st h; exact h
  | cons r rest ih =>
    intro st h
    exact ih (fanStep cfg jm st r) (fanStep_started_succ cfg jm st r h)

theorem fanPhase_started_succ (cfg : MergeCfg) (jm : String) (ms : List String)
    (arrival : List Nat) (mo : Nat → Nat → AttemptOutcome) :
    (fanPhase cfg jm ms arrival mo).judgeStarted = true →
      (fanPhase cfg jm ms arrival mo).successfulResults ≠ [] := by
  simp only [fanPhase]
  split_ifs with h
  · exact foldl_fanStep_started_succ cfg jm _ _ (fun hh => nomatch hh)
  · intro hh
    exact nomatch hh

theorem mergeAfterFan_all_failed (cfg : MergeCfg) (prompt jm : String)
    (jo : Nat → AttemptOutcome) (fb : Nat → AttemptOutcome)
    (rf : Nat → Nat → AttemptOutcome) (st : FanState)
    (h : (!st.judgeStarted) = true ∧ st.successfulResults.length = 0) :
    (mergeAfterFan cfg prompt jm jo fb rf st).result =
      .error (.allModelsFailed st.modelResults) := by
  simp only [mergeAfterFan, if_pos h]

/-- Result assembly of the post-fan phase when at least one model succeeded:
judge success returns the judge output; judge failure falls back via the
`||`-chain over the first final answer. -/
theorem mergeAfterFan_merged (cfg : MergeCfg) (prompt jm : String)
    (jo : Nat → AttemptOutcome) (fb : Nat → AttemptOutcome)
    (rf : Nat → Nat → AttemptOutcome) (st : FanState)
    (hsucc : st.successfulResults ≠ []) :
    (mergeAfterFan cfg prompt jm jo fb rf st).finalAnswersForJudge =
      (debatePhase cfg prompt fb rf (lateJudgeStart jm st)).2 ∧
    (∀ s, (mergeAfterFan cfg prompt jm jo fb rf st).activeJudgeOutcome = .ok s →
      (mergeAfterFan cfg prompt jm jo fb rf st).result = .ok ⟨some s, st.modelResults⟩) ∧
    (∀ e, (mergeAfterFan cfg prompt jm jo fb rf st).activeJudgeOutcome = .error e →
      (mergeAfterFan cfg prompt jm jo fb rf st).result =
        .ok ⟨jsOrOpt
          (((debatePhase cfg prompt fb rf (lateJudgeStart jm st)).2.head?).map (·.answer))
          (jsOrOpt (st.successfulResults.head?.bind (·.answer)) none), st.modelResults⟩) := by
  have hcond : ¬((!st.judgeStarted) = true ∧ st.successfulResults.length = 0) :=
    fun hh => hsucc (List.length_eq_zero.mp hh.2)
  refine ⟨?_, ?_, ?_⟩
  · simp only [mergeAfterFan, if_neg hcond]
  · intro s h
    simp only [mergeAfterFan, if_neg hcond] at h ⊢
    rw [h, lateJudgeStart_modelResults]
  · intro e h
    simp only [mergeAfterFan, if_neg hcond] at h ⊢
    rw [h, lateJudgeStart_modelResults, lateJudgeStart_successes]

/-- **C7**: over a valid request whose completions arrive in some permutation
of the requested models, the fan-out result list carries exactly one entry
per requested model (same multiset of ids, possibly in completion order),
each successful entry holds a non-empty answer and each failed entry a null
answer; and both the success payload and the AllModelsFailed payload are
exactly this list. -/
theorem merge_model_answers_spec (cfg : MergeCfg) (prompt : String)
    (mode : Option String) (ms : List String) (cj : Option String) (arrival : List Nat)
    (mo : Nat → Nat → AttemptOutcome) (jo : Nat → AttemptOutcome)
    (fb : Nat → AttemptOutcome) (rf : Nat → Nat → AttemptOutcome)
    (hms : ms ≠ []) (hp1 : ¬(prompt = "" ∨ (jsTrim prompt).length = 0))
    (hp2 : ¬(prompt.length > cfg.maxPromptLength))
    (harr : arrival.Perm (List.range ms.length)) :
    ((merge cfg prompt mode (some ms) cj arrival mo jo fb rf).fanoutResults.map
      (·.model)).Perm ms ∧
    (∀ r ∈ (merge cfg prompt mode (some ms) cj arrival mo jo fb rf).fanoutResults,
      (r.success = true → ∃ a, r.answer = some a ∧ a ≠ "") ∧
      (r.success = false → r.answer = none)) ∧
    (∀ m L, (merge cfg prompt mode (some ms) cj arrival mo jo fb rf).result = .ok ⟨m, L⟩ →
      L = (merge cfg prompt mode (some ms) cj arrival mo jo fb rf).fanoutResults) ∧
    (∀ L, (merge cfg prompt mode (some ms) cj arrival mo jo fb rf).result =
        .error (.allModelsFailed L) →
      L = (merge cfg prompt mode (some ms) cj arrival mo jo fb rf).fanoutResults) := by
  rw [merge_valid_eq cfg prompt mode ms cj arrival mo jo fb rf hms hp1 hp2]
  obtain ⟨hmr, _, _, _⟩ :=
    fanPhase_inv cfg (jsOrString cj cfg.judgeModel) ms arrival mo
  obtain ⟨hf1, _, hok, herr⟩ :=
    mergeAfterFan_fields cfg prompt (jsOrString cj cfg.judgeModel) jo fb rf
      (fanPhase cfg (jsOrString cj cfg.judgeModel) ms arrival mo)
  rw [hf1, hmr]
  refine ⟨?_, ?_, ?_, ?_⟩
  · unfold fanResultsOf
    split_ifs with h
    · rw [List.map_map]
      have hcomp : arrival.map ((fun r => r.model) ∘
          (fun i => callSingleModel cfg (ms.getD i "") (mo i))) =
          arrival.map (fun i => ms.getD i "") := by
        simp [Function.comp, callSingleModel_model]
      rw [hcomp]
      have := harr.map (fun i => ms.getD i "")
      rwa [map_getD_range ms ""] at this
    · rw [List.map_map]
      have hcomp : (List.range ms.length).map ((fun r => r.model) ∘
          (fun i => callSingleModel cfg (ms.getD i "") (mo i))) =
          (List.range ms.length).map (fun i => ms.getD i "") := by
        simp [Function.comp, callSingleModel_model]
      rw [hcomp, map_getD_range ms ""]
  · intro r hr
    unfold fanResultsOf at hr
    split_ifs at hr with h <;>
    · obtain ⟨i, _, hri⟩ := List.mem_map.mp hr
      rw [← hri]
      exact callSingleModel_inv cfg (ms.getD i "") (mo i)
  · intro m L h
    rw [hok m L h, hmr]
  · intro L h
    rw [herr L h, hmr]

/-- Witness for C7: two requested models arriving in reverse order, the
second failing with an HTTP 500. -/
theorem merge_model_answers_witness :
    ((merge c3cfg "What is 2+2?" none (some ["m1", "m2"]) none [1, 0]
      (fun i _ => if i = 0 then .httpOk "four" else .axiosHttpError 500 "oops")
      (fun _ => .httpOk "merged") (fun _ => .httpOk "feedback")
      (fun _ _ => .httpOk "refined")).fanoutResults.map (·.model)).Perm ["m1", "m2"] ∧
    (∀ r ∈ (merge c3cfg "What is 2+2?" none (some ["m1", "m2"]) none [1, 0]
      (fun i _ => if i = 0 then .httpOk "four" else .axiosHttpError 500 "oops")
      (fun _ => .httpOk "merged") (fun _ => .httpOk "feedback")
      (fun _ _ => .httpOk "refined")).fanoutResults,
      (r.success = true → ∃ a, r.answer = some a ∧ a ≠ "") ∧
      (r.success = false → r.answer = none)) :=
  ⟨(merge_model_answers_spec c3cfg "What is 2+2?" none ["m1", "m2"] none [1, 0]
      (fun i _ => if i = 0 then .httpOk "four" else .axiosHttpError 500 "oops")
      (fun _ => .httpOk "merged") (fun _ => .httpOk "feedback")
      (fun _ _ => .httpOk "refined") (by decide) (by decide) (by decide) (by decide)).1,
   (merge_model_answers_spec c3cfg "What is 2+2?" none ["m1", "m2"] none [1, 0]
      (fun i _ => if i = 0 then .httpOk "four" else .axiosHttpError 500 "oops")
      (fun _ => .httpOk "merged") (fun _ => .httpOk "feedback")
      (fun _ _ => .httpOk "refined") (by decide) (by decide) (by decide) (by decide)).2.1⟩

theorem fanResultsOf_inv (cfg : MergeCfg) (ms : List String) (arrival : List Nat)
    (mo : Nat → Nat → AttemptOutcome) :
    ∀ r ∈ fanResultsOf cfg ms arrival mo,
      (r.success = true → ∃ a, r.answer = some a ∧ a ≠ "") ∧
      (r.success = false → r.answer = none) := by
  intro r hr
  unfold fanResultsOf at hr
  split_ifs at hr with h <;>
  · obtain ⟨i, _, hri⟩ := List.mem_map.mp hr
    rw [← hri]
    exact callSingleModel_inv cfg (ms.getD i "") (mo i)

theorem debatePhase_char (cfg : MergeCfg) (prompt : String) (fb : Nat → AttemptOutcome)
    (rf : Nat → Nat → AttemptOutcome) (st2 : FanState) :
    (debatePhase cfg prompt fb rf st2).2 =
      if cfg.enableDebate = true ∧ 2 ≤ st2.successfulResults.length then
        (conductIterativeDebate cfg.maxDebateRounds cfg.judgeFeedbackTimeoutMs
          cfg.debateTimeoutMs fb rf prompt (st2.successfulResults.map toJAnswer)).finalAnswers
      else st2.successfulResults.map toJAnswer := by
  simp only [debatePhase]
  split_ifs with h1 <;> rfl

/-- **C5**: result assembly.  For a valid request: if some model call
succeeded, then (a) when the active judge call succeeds the merged answer is
the judge output, (b) when it fails the merged answer is the first answer of
`finalAnswersForJudge`, which is (c) the successes when debate did not run
and (d) the debated final answers when it did; and if no model call
succeeded, `merge` fails with `AllModelsFailed` (HTTP 500) carrying the full
per-model result list. -/
theorem merge_result_assembly (cfg : MergeCfg) (prompt : String)
    (mode : Option String) (ms : List String) (cj : Option String) (arrival : List Nat)
    (mo : Nat → Nat → AttemptOutcome) (jo : Nat → AttemptOutcome)
    (fb : Nat → AttemptOutcome) (rf : Nat → Nat → AttemptOutcome)
    (hms : ms ≠ []) (hp1 : ¬(prompt = "" ∨ (jsTrim prompt).length = 0))
    (hp2 : ¬(prompt.length > cfg.maxPromptLength))
    (harr : arrival.Perm (List.range ms.length)) :
    let run := merge cfg prompt mode (some ms) cj arrival mo jo fb rf
    ((∃ r ∈ run.fanoutResults, r.success = true) →
      (∀ s, run.activeJudgeOutcome = .ok s →
        run.result = .ok ⟨some s, run.fanoutResults⟩) ∧
      (∀ e, run.activeJudgeOutcome = .error e →
        ∃ hd tl, run.finalAnswersForJudge = hd :: tl ∧
          run.result = .ok ⟨some hd.answer, run.fanoutResults⟩) ∧
      (¬(cfg.enableDebate = true ∧ 2 ≤ run.successfulResults.length) →
        run.finalAnswersForJudge = run.successfulResults.map toJAnswer) ∧
      ((cfg.enableDebate = true ∧ 2 ≤ run.successfulResults.length) →
        run.finalAnswersForJudge = (conductIterativeDebate cfg.maxDebateRounds
          cfg.judgeFeedbackTimeoutMs cfg.debateTimeoutMs fb rf prompt
          (run.successfulResults.map toJAnswer)).finalAnswers)) ∧
    ((∀ r ∈ run.fanoutResults, r.success = false) →
      run.result = .error (.allModelsFailed run.fanoutResults)) := by
  intro run
  have hrun : run = mergeAfterFan cfg prompt (jsOrString cj cfg.judgeModel) jo fb rf
      (fanPhase cfg (jsOrString cj cfg.judgeModel) ms arrival mo) :=
    merge_valid_eq cfg prompt mode ms cj arrival mo jo fb rf hms hp1 hp2
  obtain ⟨hf1, hf2, hok, herr⟩ :=
    mergeAfterFan_fields cfg prompt (jsOrString cj cfg.judgeModel) jo fb rf
      (fanPhase cfg (jsOrString cj cfg.judgeModel) ms arrival mo)
  obtain ⟨hmr, hsr, _, _⟩ :=
    fanPhase_inv cfg (jsOrString cj cfg.judgeModel) ms arrival mo
  rw [hrun]
  refine ⟨?_, ?_⟩
  · rintro ⟨r0, hr0, hs0⟩
    have hr0f : r0 ∈ fanResultsOf cfg ms arrival mo := by rw [hf1, hmr] at hr0; exact hr0
    have hsucc : (fanPhase cfg (jsOrString cj cfg.judgeModel) ms arrival
        mo).successfulResults ≠ [] := by
      rw [hsr]
      exact List.ne_nil_of_mem (List.mem_filter.mpr ⟨hr0f, hs0⟩)
    obtain ⟨hfin, hoks, herrs⟩ :=
      mergeAfterFan_merged cfg prompt (jsOrString cj cfg.judgeModel) jo fb rf
        (fanPhase cfg (jsOrString cj cfg.judgeModel) ms arrival mo) hsucc
    have hdchar :
        (mergeAfterFan cfg prompt (jsOrString cj cfg.judgeModel) jo fb rf
          (fanPhase cfg (jsOrString cj cfg.judgeModel) ms arrival
            mo)).finalAnswersForJudge =
        if cfg.enableDebate = true ∧ 2 ≤ (fanPhase cfg (jsOrString cj cfg.judgeModel) ms
            arrival mo).successfulResults.length then
          (conductIterativeDebate cfg.maxDebateRounds cfg.judgeFeedbackTimeoutMs
            cfg.debateTimeoutMs fb rf prompt
            ((fanPhase cfg (jsOrString cj cfg.judgeModel) ms arrival
              mo).successfulResults.map toJAnswer)).finalAnswers
        else (fanPhase cfg (jsOrString cj cfg.judgeModel) ms arrival
          mo).successfulResults.map toJAnswer := by
      rw [hfin, debatePhase_char, lateJudgeStart_successes]
    have hanne : ∀ a ∈ (fanPhase cfg (jsOrString cj cfg.judgeModel) ms arrival
        mo).successfulResults.map toJAnswer, a.answer ≠ "" := by
      intro a ha
      obtain ⟨r, hrmem, hreq⟩ := List.mem_map.mp ha
      rw [hsr] at hrmem
      obtain ⟨hrf, hrs⟩ := List.mem_filter.mp hrmem
      obtain ⟨x, hx, hxne⟩ := (fanResultsOf_inv cfg ms arrival mo r hrf).1 hrs
      rw [← hreq]
      show r.answer.getD "" ≠ ""
      rw [hx]
      exact hxne
    have hmapne : (fanPhase cfg (jsOrString cj cfg.judgeModel) ms arrival
        mo).successfulResults.map toJAnswer ≠ [] := by
      intro h
      exact hsucc (List.map_eq_nil.mp h)
    have hfane :
        (mergeAfterFan cfg prompt (jsOrString cj cfg.judgeModel) jo fb rf
          (fanPhase cfg (jsOrString cj cfg.judgeModel) ms arrival
            mo)).finalAnswersForJudge ≠ [] ∧
        ∀ a ∈ (mergeAfterFan cfg prompt (jsOrString cj cfg.judgeModel) jo fb rf
          (fanPhase cfg (jsOrString cj cfg.judgeModel) ms arrival
            mo)).finalAnswersForJudge, a.answer ≠ "" := by
      rw [hdchar]
      split_ifs with hdc
      · obtain ⟨hlen, hne⟩ := conductIterativeDebate_answers cfg.maxDebateRounds
          cfg.judgeFeedbackTimeoutMs cfg.debateTimeoutMs fb rf prompt
          ((fanPhase cfg (jsOrString cj cfg.judgeModel) ms arrival
            mo).successfulResults.map toJAnswer) hanne
        refine ⟨?_, hne⟩
        intro hnil
        exact hmapne (List.length_eq_zero.mp (by rw [← hlen, hnil]; rfl))
      · exact ⟨hmapne, hanne⟩
    refine ⟨?_, ?_, ?_, ?_⟩
    · intro s hjs
      rw [hf1]
      exact hoks s hjs
    · intro e hje
      obtain ⟨hd, tl, hcons⟩ := List.exists_cons_of_ne_nil hfane.1
      have hhdne : hd.answer ≠ "" :=
        hfane.2 hd (by rw [hcons]; exact List.mem_cons_self hd tl)
      refine ⟨hd, tl, hcons, ?_⟩
      have hres := herrs e hje
      rw [← hfin, hcons] at hres
      rw [hf1, hres]
      simp [jsOrOpt, hhdne]
    · intro hnd
      rw [hf2] at hnd
      rw [hf2, hdchar, if_neg hnd]
    · intro hdc
      rw [hf2] at hdc
      rw [hf2, hdchar, if_pos hdc]
  · intro hall
    have hall2 : ∀ r ∈ fanResultsOf cfg ms arrival mo, r.success = false := by
      intro r hr
      exact hall r (by rw [hf1, hmr]; exact hr)
    have hnil : (fanPhase cfg (jsOrString cj cfg.judgeModel) ms arrival
        mo).successfulResults = [] := by
      rw [hsr]
      apply List.filter_eq_nil.mpr
      intro a ha
      simp [hall2 a ha]
    have hjs : (fanPhase cfg (jsOrString cj cfg.judgeModel) ms arrival
        mo).judgeStarted = false := by
      cases hjsb : (fanPhase cfg (jsOrString cj cfg.judgeModel) ms arrival mo).judgeStarted
      · rfl
      · exact absurd hnil (fanPhase_started_succ cfg (jsOrString cj cfg.judgeModel) ms
          arrival mo hjsb)
    rw [hf1]
    exact mergeAfterFan_all_failed cfg prompt (jsOrString cj cfg.judgeModel) jo fb rf
      (fanPhase cfg (jsOrString cj cfg.judgeModel) ms arrival mo)
      ⟨by rw [hjs]; rfl, by rw [hnil]; rfl⟩

theorem merge_result_assembly_witness :
    (merge c3cfg "What is 2+2?" none (some ["m1", "m2"]) none [0, 1]
        (fun _ _ => .httpOk "four") (fun _ => .httpOk "merged")
        (fun _ => .httpOk "feedback") (fun _ _ => .httpOk "refined")).result =
      .ok ⟨some "merged",
        (merge c3cfg "What is 2+2?" none (some ["m1", "m2"]) none [0, 1]
          (fun _ _ => .httpOk "four") (fun _ => .httpOk "merged")
          (fun _ => .httpOk "feedback") (fun _ _ => .httpOk "refined")).fanoutResults⟩ :=
  ((merge_result_assembly c3cfg "What is 2+2?" none ["m1", "m2"] none [0, 1]
      (fun _ _ => .httpOk "four") (fun _ => .httpOk "merged")
      (fun _ => .httpOk "feedback") (fun _ _ => .httpOk "refined")
      (by decide) (by decide) (by decide) (by decide)).1
    (by decide)).1 "merged" (by decide)

end MetaMerge
